import Mathlib

/-!
Shallow embedding of the TyrtLang interpreter (src/TyrtLang.py).

Strings are modelled as lists of characters (`Str`); each Python string
primitive the interpreter uses (strip, startswith, in, split, rsplit and
the anchored regular expressions) is re-implemented below as an
executable Lean function.  The mutable interpreter object becomes an
explicit `Interp` state threaded through every operation; the mutual
recursion between the interpreter methods is realised by a fuel-indexed
family `sem` of records of semantic functions, one recursion level per
unit of fuel.
-/

abbrev Str := List Char

/-- Shorthand turning a Lean string literal into the character-list model. -/
def S (s : String) : Str := s.data

def lbraceChar : Char := Char.ofNat 123

def rbraceChar : Char := Char.ofNat 125

def squoteChar : Char := Char.ofNat 39

/-- Python whitespace as stripped by str.strip(). -/
def pySpace (c : Char) : Bool :=
  c == ' ' || c == '\t' || c == '\n' || c == '\x0d' || c == '\x0b' || c == '\x0c'

/-- Python str.strip(). -/
def pyStrip (s : Str) : Str :=
  ((s.dropWhile pySpace).reverse.dropWhile pySpace).reverse

/-- Python str.startswith. -/
def startsWith (p s : Str) : Bool := List.isPrefixOf p s

/-- Python str.endswith. -/
def endsWith (p s : Str) : Bool := List.isPrefixOf p.reverse s.reverse

/-- Python `c in s` for a single character. -/
def containsChar (s : Str) (c : Char) : Bool := s.contains c

/-- Split at the leftmost occurrence of `sep`: Python s.split(sep, 1) when
`sep in s`; `none` when `sep` does not occur (for nonempty `sep`). -/
def splitFirst (sep : Str) : Str → Option (Str × Str)
  | [] => if List.isPrefixOf sep ([] : Str) then some ([], []) else none
  | c :: t =>
    if List.isPrefixOf sep (c :: t) then some ([], (c :: t).drop sep.length)
    else
      match splitFirst sep t with
      | some (l, r) => some (c :: l, r)
      | none => none

/-- Python `sep in s` for a substring `sep`. -/
def containsSub (sep s : Str) : Bool := (splitFirst sep s).isSome

def splitAllAux (sep : Str) : Nat → Str → List Str
  | 0, s => [s]
  | n + 1, s =>
    match splitFirst sep s with
    | none => [s]
    | some (l, r) => l :: splitAllAux sep n r

/-- Python s.split(sep) (all occurrences). -/
def splitAll (sep s : Str) : List Str := splitAllAux sep (s.length + 1) s

def rsplitAux (sep : Str) : Nat → Str → Option (Str × Str)
  | 0, _ => none
  | n + 1, s =>
    match splitFirst sep s with
    | none => none
    | some (l, r) =>
      match rsplitAux sep n r with
      | none => some (l, r)
      | some (l2, r2) => some (l ++ sep ++ l2, r2)

/-- Python s.rsplit(sep, 1): split at the rightmost occurrence. -/
def rsplitLast (sep s : Str) : Option (Str × Str) := rsplitAux sep (s.length + 1) s

/-- Regex word character \w (ASCII range, as the scripts use). -/
def wordChar (c : Char) : Bool := c.isAlpha || c.isDigit || c == '_'

def digitChar : Nat → Char
  | 0 => '0' | 1 => '1' | 2 => '2' | 3 => '3' | 4 => '4'
  | 5 => '5' | 6 => '6' | 7 => '7' | 8 => '8' | _ => '9'

def digitVal (c : Char) : Nat := c.toNat - 48

def parseNatDigits (s : Str) : Nat := s.foldl (fun a c => 10 * a + digitVal c) 0

/-- Regex test ^-?\d+$ from rule 5 of eval_expr. -/
def isIntLit : Str → Bool
  | [] => false
  | c :: t => if c = '-' then !t.isEmpty && t.all Char.isDigit else (c :: t).all Char.isDigit

/-- Python int() on a string already known to match ^-?\d+$. -/
def parseIntLit : Str → Int
  | [] => (parseNatDigits [] : Int)
  | c :: t => if c = '-' then -(parseNatDigits t : Int) else (parseNatDigits (c :: t) : Int)

def natToCharsAux : Nat → Nat → Str
  | 0, _ => []
  | f + 1, n =>
    if n < 10 then [digitChar n]
    else natToCharsAux f (n / 10) ++ [digitChar (n % 10)]

/-- Decimal rendering of a natural number. -/
def natToChars (n : Nat) : Str := natToCharsAux (n + 1) n

/-- Python str() of an integer: the decimal rendering. -/
def intToStr (i : Int) : Str :=
  if i < 0 then '-' :: natToChars i.natAbs else natToChars i.toNat

/-- Insertion-ordered string-keyed mapping, the model of a Python dict
owned by the interpreter (variables, functions, classes, methods). -/
abbrev Dict (α : Type) := List (Str × α)

def dget {α : Type} : Dict α → Str → Option α
  | [], _ => none
  | (k2, v) :: t, k => if k2 == k then some v else dget t k

def dhas {α : Type} (d : Dict α) (k : Str) : Bool := (dget d k).isSome

def dset {α : Type} : Dict α → Str → α → Dict α
  | [], k, v => [(k, v)]
  | (k2, v2) :: t, k, v =>
    if k2 == k then (k2, v) :: t else (k2, v2) :: dset t k v

/-- Python dict.update: entries of `b` written into a copy of `a`. -/
def dmerge {α : Type} (a b : Dict α) : Dict α :=
  b.foldl (fun acc p => dset acc p.1 p.2) a

/-- Error taxonomy: one kind per exception class of the interpreter, plus
`pyError` for exceptions raised by the Python runtime itself (TypeError,
ValueError, IndexError, KeyError). -/
inductive ErrKind where
  | lineNoRecognized
  | invalidSyntax
  | invalidExpression
  | tyrtError
  | tyrtRuntimeError
  | variableNotDefined
  | constantReassignment
  | invalidMethodCall
  | notImplementedError
  | pyError
deriving DecidableEq, Repr

structure TyrtErr where
  kind : ErrKind
  msg : Str
deriving DecidableEq, Repr

/-- Non-local exits: raised errors, the two loop-control signals, and the
fuel-exhaustion artifact of the embedding (modelling nontermination of the
unboundedly recursive Python code; never raised by the embedded logic). -/
inductive Interrupt where
  | err : TyrtErr → Interrupt
  | brk
  | cont
  | outOfFuel
deriving DecidableEq, Repr

/-- isinstance(e, TyrtError): the kinds caught by the bare-call fallback. -/
def isTyrtErrorKind : ErrKind → Bool
  | .tyrtError | .tyrtRuntimeError | .variableNotDefined | .constantReassignment
  | .invalidMethodCall | .notImplementedError => true
  | _ => false

/-- isinstance(e, TyrtRuntimeError): the kinds caught by a Try block. -/
def isTyrtRuntimeErrorKind : ErrKind → Bool
  | .tyrtRuntimeError | .variableNotDefined | .constantReassignment
  | .invalidMethodCall | .notImplementedError => true
  | _ => false

abbrev Res (α : Type) := Except Interrupt α

def mkErr (k : ErrKind) (m : Str) : Interrupt := .err ⟨k, m⟩

/-- A registered function or method: (parameter names, body lines). -/
abbrev FuncDef := List Str × List Str

abbrev MethodTable := Dict FuncDef

/-- Runtime values: the Python values the interpreter produces.  A
TyrtInstance is carried by value (class name, instance variables, method
table); a caught exception bound by `Except as` is `verr`. -/
inductive Value where
  | vint : Int → Value
  | vbool : Bool → Value
  | vstr : List Char → Value
  | vlist : List Value → Value
  | vdict : List (Value × Value) → Value
  | vinst : List Char → List (List Char × Value) →
      List (List Char × (List (List Char) × List (List Char))) → Value
  | verr : TyrtErr → Value
  | vnone : Value
deriving Repr

/-- The mutable interpreter state: the `self` fields of TyrtLangInterpreter
written by the engine, plus the produced standard output. -/
structure Interp where
  /-- self.variables (the field keeps a shorter name: `variables` is a
  reserved word in Lean). -/
  vars : Dict Value := []
  functions : Dict FuncDef := []
  classes : Dict MethodTable := []
  inIf : Bool := false
  ifActive : Bool := false
  ifLines : List Str := []
  inFor : Bool := false
  forBlock : List Str := []
  forVar : Str := []
  forStart : Str := []
  forEnd : Str := []
  inWhile : Bool := false
  whileBlock : List Str := []
  whileCond : Str := []
  inFunc : Bool := false
  funcBlock : List Str := []
  funcName : Str := []
  funcParams : List Str := []
  inClass : Bool := false
  className : Str := []
  classMethods : MethodTable := []
  inTry : Bool := false
  tryBlock : List Str := []
  inExcept : Bool := false
  exceptBlock : List Str := []
  exceptVar : Option Str := none
  inNow : Bool := false
  nowBlock : List Str := []
  output : List Str := []
deriving Repr

/-- Read-only context: `self.constants` (never assigned anywhere in the
interpreter source, so write-once as the spec states) and the host file
system seen by the read_file primitive (the external I/O collaborator). -/
structure Ctx where
  constants : Dict Value := []
  files : Dict Str := []

mutual

/-- Python == on the values the interpreter handles.  Numeric kinds
compare across int/bool; containers compare elementwise; instances and
exception objects compare by identity in Python, which a by-value
embedding cannot witness, so they compare unequal here (no script path
the theorems below take compares them). -/
def pyEq : Value → Value → Bool
  | .vint a, .vint b => a == b
  | .vint a, .vbool b => a == (if b then 1 else 0)
  | .vbool a, .vint b => (if a then (1 : Int) else 0) == b
  | .vbool a, .vbool b => a == b
  | .vstr a, .vstr b => a == b
  | .vlist a, .vlist b => pyEqList a b
  | .vdict a, .vdict b => pyEqPairs a b
  | .vnone, .vnone => true
  | _, _ => false

def pyEqList : List Value → List Value → Bool
  | [], [] => true
  | a :: t1, b :: t2 => pyEq a b && pyEqList t1 t2
  | _, _ => false

def pyEqPairs : List (Value × Value) → List (Value × Value) → Bool
  | [], [] => true
  | (k1, v1) :: t1, (k2, v2) :: t2 => pyEq k1 k2 && pyEq v1 v2 && pyEqPairs t1 t2
  | _, _ => false

end

/-- Python truthiness, as used by eval_condition via bool(result). -/
def pyBool : Value → Bool
  | .vint a => !(a == 0)
  | .vbool b => b
  | .vstr s => !s.isEmpty
  | .vlist l => !l.isEmpty
  | .vdict d => !d.isEmpty
  | .vinst _ _ _ => true
  | .verr _ => true
  | .vnone => false

/-- Numeric view: Python treats bool as int in arithmetic/comparisons. -/
def pyNum : Value → Option Int
  | .vint a => some a
  | .vbool b => some (if b then 1 else 0)
  | _ => none

/-- Python + on raw values (line 324 of the source): numeric addition,
string/list concatenation, TypeError otherwise. -/
def pyAdd (a b : Value) : Res Value :=
  match pyNum a, pyNum b with
  | some x, some y => .ok (.vint (x + y))
  | _, _ =>
    match a, b with
    | .vstr x, .vstr y => .ok (.vstr (x ++ y))
    | .vlist x, .vlist y => .ok (.vlist (x ++ y))
    | _, _ => .error (mkErr .pyError (S "TypeError: unsupported operand types for +"))

/-- Code-point lexicographic order of Python strings. -/
def strLt : Str → Str → Bool
  | [], [] => false
  | [], _ :: _ => true
  | _ :: _, [] => false
  | a :: x, b :: y =>
    if a.toNat < b.toNat then true
    else if b.toNat < a.toNat then false
    else strLt x y

/-- Python > on raw values (line 326): numeric or string comparison;
the interpreter never reaches it with other same-typed operands in the
paths settled below, so remaining cases model the TypeError. -/
def pyGt (a b : Value) : Res Value :=
  match pyNum a, pyNum b with
  | some x, some y => .ok (.vbool (decide (y < x)))
  | _, _ =>
    match a, b with
    | .vstr x, .vstr y => .ok (.vbool (strLt y x))
    | _, _ => .error (mkErr .pyError (S "TypeError: unsupported operand types for order comparison"))

/-- Python < on raw values (line 327). -/
def pyLt (a b : Value) : Res Value :=
  match pyNum a, pyNum b with
  | some x, some y => .ok (.vbool (decide (x < y)))
  | _, _ =>
    match a, b with
    | .vstr x, .vstr y => .ok (.vbool (strLt x y))
    | _, _ => .error (mkErr .pyError (S "TypeError: unsupported operand types for order comparison"))

/-- Python int(str): strip, optional sign, decimal digits, else ValueError. -/
def pyParseIntStr (s : Str) : Res Int :=
  match pyStrip s with
  | '-' :: d =>
    if !d.isEmpty && d.all Char.isDigit then .ok (-(parseNatDigits d : Int))
    else .error (mkErr .pyError (S "ValueError: invalid literal for int()"))
  | '+' :: d =>
    if !d.isEmpty && d.all Char.isDigit then .ok (parseNatDigits d : Int)
    else .error (mkErr .pyError (S "ValueError: invalid literal for int()"))
  | d =>
    if !d.isEmpty && d.all Char.isDigit then .ok (parseNatDigits d : Int)
    else .error (mkErr .pyError (S "ValueError: invalid literal for int()"))

/-- Python int(x) on a value, as used by pop. -/
def pyToInt : Value → Res Int
  | .vint a => .ok a
  | .vbool b => .ok (if b then 1 else 0)
  | .vstr s => pyParseIntStr s
  | _ => .error (mkErr .pyError (S "TypeError: int() argument must be a string or a number"))

/-- Python list indexing with negative-index wrap-around. -/
def pyListGet (l : List Value) (i : Int) : Res Value :=
  let j := if i < 0 then i + l.length else i
  if j < 0 then .error (mkErr .pyError (S "IndexError: list index out of range"))
  else
    match l.get? j.toNat with
    | some v => .ok v
    | none => .error (mkErr .pyError (S "IndexError: list index out of range"))

/-- Python list element assignment with negative-index wrap-around. -/
def pyListSet (l : List Value) (i : Int) (v : Value) : Res (List Value) :=
  let j := if i < 0 then i + l.length else i
  if j < 0 then .error (mkErr .pyError (S "IndexError: list assignment index out of range"))
  else
    match l.get? j.toNat with
    | some _ => .ok (l.set j.toNat v)
    | none => .error (mkErr .pyError (S "IndexError: list assignment index out of range"))

/-- Python list.pop(i): the removed element and the remaining list, or
none on an out-of-range index (the IndexError branch). -/
def pyListPop (l : List Value) (i : Int) : Option (Value × List Value) :=
  let j := if i < 0 then i + l.length else i
  if j < 0 then none
  else
    match l.get? j.toNat with
    | some v => some (v, l.take j.toNat ++ l.drop (j.toNat + 1))
    | none => none

/-- Python dict lookup keyed by value equality. -/
def pyDictGet : List (Value × Value) → Value → Option Value
  | [], _ => none
  | (k2, v) :: t, k => if pyEq k2 k then some v else pyDictGet t k

/-- Python dict element assignment keyed by value equality. -/
def pyDictSet : List (Value × Value) → Value → Value → List (Value × Value)
  | [], k, v => [(k, v)]
  | (k2, v2) :: t, k, v =>
    if pyEq k2 k then (k2, v) :: t else (k2, v2) :: pyDictSet t k v

mutual

/-- Python repr() of a value: strings quoted, containers recursively
rendered, instances via __repr__ of TyrtInstance. -/
def pyReprVal : Value → Str
  | .vint a => intToStr a
  | .vbool b => if b then S "True" else S "False"
  | .vstr s => squoteChar :: s ++ [squoteChar]
  | .vlist l => '[' :: pyReprElems l ++ [']']
  | .vdict d => lbraceChar :: pyReprPairs d ++ [rbraceChar]
  | .vinst cn _ _ => S "<TyrtInstance: " ++ cn ++ S ">"
  | .verr e => e.msg
  | .vnone => S "None"

def pyReprElems : List Value → Str
  | [] => []
  | [x] => pyReprVal x
  | x :: t => pyReprVal x ++ S ", " ++ pyReprElems t

def pyReprPairs : List (Value × Value) → Str
  | [] => []
  | [(k, v)] => pyReprVal k ++ S ": " ++ pyReprVal v
  | (k, v) :: t => pyReprVal k ++ S ": " ++ pyReprVal v ++ S ", " ++ pyReprPairs t

end

def joinCommaSp : List Str → Str
  | [] => []
  | [x] => x
  | x :: t => x ++ S ", " ++ joinCommaSp t

/-- Python str() of a value, as written by print: strings raw, containers
via repr, instances via __str__ of TyrtInstance, exceptions via their
message. -/
def pyStrVal : Value → Str
  | .vstr s => s
  | .vinst cn iv _ =>
      S "Objeto " ++ cn ++ S " " ++ lbraceChar :: joinCommaSp (iv.map (fun p => p.1)) ++ [rbraceChar]
  | v => pyReprVal v

/-- Anchored match of r"Except\s+as\s+(\w+)\s*\x7b?" (line 159): the bound
error-variable name, or none when the pattern fails. -/
def matchExceptAs (s : Str) : Option Str :=
  if !startsWith (S "Except") s then none
  else
    let r1 := s.drop 6
    if (r1.takeWhile pySpace).isEmpty then none
    else
      let r2 := r1.dropWhile pySpace
      if !startsWith (S "as") r2 then none
      else
        let r3 := r2.drop 2
        if (r3.takeWhile pySpace).isEmpty then none
        else
          let w := (r3.dropWhile pySpace).takeWhile wordChar
          if w.isEmpty then none else some w

/-- Tail of the entr_i pattern after the loop-variable group:
\s*ty\s*(\d+):(\d+)\s*(_CS-TINK)?\s*\x7b . -/
def entrTail (mid : Str) : Option (Str × Str) :=
  let m1 := mid.dropWhile pySpace
  if !startsWith (S "ty") m1 then none
  else
    let m2 := (m1.drop 2).dropWhile pySpace
    let d1 := m2.takeWhile Char.isDigit
    if d1.isEmpty then none
    else
      match m2.drop d1.length with
      | ':' :: m4 =>
        let d2 := m4.takeWhile Char.isDigit
        if d2.isEmpty then none
        else
          let m5 := (m4.drop d2.length).dropWhile pySpace
          let m6 :=
            if startsWith (S "_CS-TINK") m5 then (m5.drop 8).dropWhile pySpace else m5
          if startsWith [lbraceChar] m6 then some (d1, d2) else none
      | _ => none

def matchEntrIGo (run tail : Str) : Nat → Option (Str × Str × Str)
  | 0 => none
  | k + 1 =>
    match entrTail (run.drop (k + 1) ++ tail) with
    | some (d1, d2) => some (run.take (k + 1), d1, d2)
    | none => matchEntrIGo run tail k

/-- Anchored match of r"entr_i\s*(\w+)\s*ty\s*(\d+):(\d+)\s*(_CS-TINK)?\s*\x7b"
(line 171), with the backtracking of the greedy \w+ group: (loop variable,
start digits, end digits). -/
def matchEntrI (s : Str) : Option (Str × Str × Str) :=
  if !startsWith (S "entr_i") s then none
  else
    let rest := (s.drop 6).dropWhile pySpace
    let run := rest.takeWhile wordChar
    if run.isEmpty then none
    else matchEntrIGo run (rest.drop run.length) run.length

/-- Anchored match of r"class\s+(\w+)\s*\x7b" (line 186): the class name. -/
def matchClass (s : Str) : Option Str :=
  if !startsWith (S "class") s then none
  else
    let r1 := s.drop 5
    if (r1.takeWhile pySpace).isEmpty then none
    else
      let r2 := r1.dropWhile pySpace
      let w := r2.takeWhile wordChar
      if w.isEmpty then none
      else
        if startsWith [lbraceChar] ((r2.drop w.length).dropWhile pySpace)
        then some w else none

def funcArgsSearch (rem : Str) : Nat → Option Str
  | 0 => none
  | i + 1 =>
    if rem.get? i == some ')' &&
        startsWith [lbraceChar] ((rem.drop (i + 1)).dropWhile pySpace)
    then some (rem.take i)
    else funcArgsSearch rem i

/-- Anchored match of r"func\s+(\w+)\s*\((.*)\)\s*\x7b" (line 190): the
greedy (.*) group takes everything up to the rightmost close parenthesis
that is followed by optional spaces and the open brace: (name, raw
parameter text). -/
def matchFunc (s : Str) : Option (Str × Str) :=
  if !startsWith (S "func") s then none
  else
    let r1 := s.drop 4
    if (r1.takeWhile pySpace).isEmpty then none
    else
      let r2 := r1.dropWhile pySpace
      let w := r2.takeWhile wordChar
      if w.isEmpty then none
      else
        match (r2.drop w.length).dropWhile pySpace with
        | '(' :: rem =>
          match funcArgsSearch rem rem.length with
          | some args => some (w, args)
          | none => none
        | _ => none

/-- Anchored match of r"(\w+)\s*\((.*)\)$" (line 284): function-call shape,
(callee name, argument text). -/
def matchNativeFunc (s : Str) : Option (Str × Str) :=
  let w := s.takeWhile wordChar
  if w.isEmpty then none
  else
    match (s.drop w.length).dropWhile pySpace with
    | '(' :: rest =>
      if endsWith (S ")") rest then some (w, rest.dropLast) else none
    | _ => none

/-- Anchored match of r"(\w+)\s*\[(.*)\]$" (lines 206 and 331): indexing
shape, (collection name, index text). -/
def matchIndexForm (s : Str) : Option (Str × Str) :=
  let w := s.takeWhile wordChar
  if w.isEmpty then none
  else
    match (s.drop w.length).dropWhile pySpace with
    | '[' :: rest =>
      if endsWith (S "]") rest then some (w, rest.dropLast) else none
    | _ => none

/-- re.search(r"\[.+?\]$", s) (line 330): a close bracket at the end with
an open bracket at least two positions earlier. -/
def searchIndexShape (s : Str) : Bool :=
  endsWith (S "]") s && containsChar (s.take (s.length - 2)) '['

/-- Regex test ^".*"$ from rule 5 of eval_expr. -/
def isStrLit : Str → Bool
  | [] => false
  | c :: t => if c = '"' then !t.isEmpty && t.getLast? == some '"' else false

/-- Python s.strip(the double-quote character). -/
def stripQuotes (s : Str) : Str :=
  ((s.dropWhile (· == '"')).reverse.dropWhile (· == '"')).reverse

/-- Parameter-list parsing of line 193: split on commas, strip, keep
nonempty. -/
def parseParams (s : Str) : List Str :=
  ((splitAll (S ",") s).map pyStrip).filter (fun p => !p.isEmpty)

/-- DUNDER_MAP of TyrtInstance (lines 11 to 15): note the absence of
entries for the pseudo-operators print and len. -/
def DUNDER_MAP : Dict Str :=
  [(S "+", S "___add___"), (S "-", S "___sub___"), (S "*", S "___mul___"),
   (S "/", S "___truediv___"), (S "==", S "___eq___"), (S "!=", S "___ne___"),
   (S ">", S "___gt___"), (S "<", S "___lt___"),
   (S "getitem", S "___getitem___"), (S "setitem", S "___setitem___")]

/-- Python exception class names, for the wrapped "Erro interno" message. -/
def errClassName : ErrKind → Str
  | .lineNoRecognized => S "LineNoRecognized"
  | .invalidSyntax => S "InvalidSyntax"
  | .invalidExpression => S "InvalidExpression"
  | .tyrtError => S "TyrtError"
  | .tyrtRuntimeError => S "TyrtRuntimeError"
  | .variableNotDefined => S "VariableNotDefined"
  | .constantReassignment => S "ConstantReassignment"
  | .invalidMethodCall => S "InvalidMethodCall"
  | .notImplementedError => S "NotImplementedError"
  | .pyError => S "Exception"

/-- One recursion level of the interpreter: a record holding the mutually
recursive methods of TyrtLangInterpreter (and the two TyrtInstance
methods).  Each function returns its result together with the updated
interpreter state; functions that can write through the aliased current
receiver also return the updated receiver. -/
structure Sem where
  eval_expr : Interp → Option (Dict Value) → Option Value → Str →
    Res Value × Interp × Option Value
  execute_line : Interp → Option Value → Str → Res Unit × Interp × Option Value
  execute_block : Interp → List Str → Option (Dict Value) → Option Value →
    Res Value × Interp × Option Value
  execute_block_end : Interp → Res Unit × Interp
  process_try_block : Interp → Res Unit × Interp
  process_for_block : Interp → Res Unit × Interp
  process_while_block : Interp → Res Unit × Interp
  process_if_block : Interp → Res Unit × Interp
  eval_condition : Interp → Str → Res Bool × Interp
  call_method : Interp → Value → Str → List Value → Res Value × Interp × Option Value
  handle_operator : Interp → Value → Str → Option Value → Res Value × Interp

/-- Rule 1 of eval_expr (lines 253 to 256): read of an instance variable
through the active receiver. -/
def selfRead (recv : Option Value) (expr : Str) : Option (Res Value) :=
  match recv with
  | some (.vinst _ iv _) =>
    if startsWith (S "self.") expr then
      let nm := pyStrip (expr.drop 5)
      match dget iv nm with
      | some v => some (.ok v)
      | none => some (.error (mkErr .variableNotDefined
          (S "Variável de instância self." ++ nm ++ S " não definida.")))
    else none
  | _ => none

/-- The argument list comprehension (lines 266, 287, 309): parts are
stripped, empty parts skipped, the rest evaluated left to right. -/
def evalArgsGo (sm : Sem) (lv : Option (Dict Value)) :
    Interp → Option Value → List Str → Res (List Value) × Interp × Option Value
  | st, recv, [] => (.ok [], st, recv)
  | st, recv, p :: rest =>
    let ps := pyStrip p
    if ps.isEmpty then evalArgsGo sm lv st recv rest
    else
      match sm.eval_expr st lv recv ps with
      | (.ok v, st1, r1) =>
        match evalArgsGo sm lv st1 r1 rest with
        | (.ok vs, st2, r2) => (.ok (v :: vs), st2, r2)
        | (.error e, st2, r2) => (.error e, st2, r2)
      | (.error e, st1, r1) => (.error e, st1, r1)

/-- dict(zip(params, args)) of lines 37 and 299. -/
def buildZipScope (ps : List Str) (vs : List Value) : Dict Value :=
  (List.zip ps vs).foldl (fun acc pv => dset acc pv.1 pv.2) []

/-- The native list-method dispatch of lines 268 to 278. -/
def listMethodCall (l : List Value) (method_name : Str) (args_list : List Value) :
    Res Value :=
  if method_name == S "len" then .ok (.vint l.length)
  else if method_name == S "append" then
    if args_list.length != 1 then
      .error (mkErr .invalidMethodCall (S "append() espera 1 argumento."))
    else .ok (.vlist (l ++ [args_list.headD .vnone]))
  else if method_name == S "pop" then
    if args_list.length > 1 then
      .error (mkErr .invalidMethodCall (S "pop() espera 0 ou 1 argumento (index)."))
    else
      match args_list with
      | [] =>
        match pyListPop l (-1) with
        | some (v, _) => .ok v
        | none => .error (mkErr .tyrtRuntimeError
            (S "Índice -1 fora dos limites para pop()."))
      | a :: _ =>
        match pyToInt a with
        | .error e => .error e
        | .ok idx =>
          match pyListPop l idx with
          | some (v, _) => .ok v
          | none => .error (mkErr .tyrtRuntimeError
              (S "Índice " ++ intToStr idx ++ S " fora dos limites para pop()."))
  else
    .error (mkErr .invalidMethodCall
      (S "Método de lista nativo não reconhecido: " ++ method_name))

/-- Rule 2 of eval_expr (lines 259 to 310), the call-shaped branch: either
a final answer (inl) or a fall-through to the operator rules with the
possibly updated state and receiver (inr). -/
def evalCallShape (K : Ctx) (sm : Sem) (st0 : Interp) (lv : Option (Dict Value))
    (recv0 : Option Value) (expr : Str) :
    Sum (Res Value × Interp × Option Value) (Interp × Option Value) :=
  -- dotted method call (lines 262 to 281)
  let afterDotted : Sum (Res Value × Interp × Option Value) (Interp × Option Value) :=
    if containsChar expr '.' then
      match rsplitLast (S ".") expr with
      | none => .inr (st0, recv0)
      | some (obj_expr, method_call) =>
        match splitFirst (S "(") method_call with
        | none =>
          .inl (.error (mkErr .pyError
            (S "ValueError: not enough values to unpack")), st0, recv0)
        | some (method_name, args_str) =>
          match sm.eval_expr st0 lv recv0 obj_expr with
          | (.error e, st1, r1) => .inl (.error e, st1, r1)
          | (.ok base_obj, st1, r1) =>
            match evalArgsGo sm lv st1 r1 (splitAll (S ",") args_str.dropLast) with
            | (.error e, st2, r2) => .inl (.error e, st2, r2)
            | (.ok args_list, st2, r2) =>
              match base_obj with
              | .vlist l => .inl (listMethodCall l method_name args_list, st2, r2)
              | .vinst cn iv ms =>
                if dhas ms method_name then
                  match sm.call_method st2 (.vinst cn iv ms) method_name args_list with
                  | (res, st3, _) => .inl (res, st3, r2)
                else .inr (st2, r2)
              | _ => .inr (st2, r2)
    else .inr (st0, recv0)
  match afterDotted with
  | .inl d => .inl d
  | .inr (stA, rA) =>
    -- native-call shape (lines 284 to 306)
    let afterNative : Sum (Res Value × Interp × Option Value) (Interp × Option Value) :=
      match matchNativeFunc expr with
      | none => .inr (stA, rA)
      | some (func_name, args_str) =>
        match evalArgsGo sm lv stA rA (splitAll (S ",") args_str) with
        | (.error e, st1, r1) => .inl (.error e, st1, r1)
        | (.ok args, st1, r1) =>
          if func_name == S "read_file" then
            match args with
            | [.vstr path] =>
              match dget K.files path with
              | some content => .inl (.ok (.vstr content), st1, r1)
              | none => .inl (.error (mkErr .tyrtRuntimeError
                  (S "Arquivo não encontrado: " ++ path)), st1, r1)
            | _ => .inl (.error (mkErr .invalidMethodCall
                (S "read_file() espera 1 argumento: o caminho do arquivo (string).")), st1, r1)
          else
            match dget st1.functions func_name with
            | some (params, body) =>
              if params.length != args.length then
                .inl (.error (mkErr .invalidMethodCall
                  (S "Função " ++ func_name ++ S " espera " ++
                   natToChars params.length ++ S " argumentos.")), st1, r1)
              else
                .inl (sm.execute_block st1 body (some (buildZipScope params args)) r1)
            | none =>
              match dget st1.classes func_name with
              | some cls_methods =>
                let new_instance := Value.vinst func_name [] cls_methods
                if dhas cls_methods (S "___init___") then
                  match sm.call_method st1 new_instance (S "___init___") args with
                  | (.error e, st2, _) => .inl (.error e, st2, r1)
                  | (.ok _, st2, iOut) =>
                    .inl (.ok (iOut.getD new_instance), st2, r1)
                else .inl (.ok new_instance, st1, r1)
              | none => .inr (st1, r1)
    match afterNative with
    | .inl d => .inl d
    | .inr (stB, rB) =>
      -- collection literals (lines 309 and 310)
      if startsWith (S ".lista(") expr then
        match evalArgsGo sm none stB none (splitAll (S ",") ((expr.drop 7).dropLast)) with
        | (.ok vs, st1, _) => .inl (.ok (.vlist vs), st1, rB)
        | (.error e, st1, _) => .inl (.error e, st1, rB)
      else if startsWith (S "#dicionario(") expr then
        .inl (.ok (.vdict []), stB, rB)
      else .inr (stB, rB)

/-- The native operator application of lines 324 to 327. -/
def natOp (op : Str) (a b : Value) : Res Value :=
  if op == S "+" then pyAdd a b
  else if op == S "==" then .ok (.vbool (pyEq a b))
  else if op == S ">" then pyGt a b
  else pyLt a b

/-- One binary operator case of rule 3 (lines 313 to 327). -/
def evalBinop (sm : Sem) (st : Interp) (lv : Option (Dict Value))
    (recv : Option Value) (op : Str) (le re2 : Str) :
    Res Value × Interp × Option Value :=
  match sm.eval_expr st lv recv le with
  | (.error e, st1, r1) => (.error e, st1, r1)
  | (.ok left_val, st1, r1) =>
    match sm.eval_expr st1 lv r1 re2 with
    | (.error e, st2, r2) => (.error e, st2, r2)
    | (.ok right_val, st2, r2) =>
      match left_val with
      | .vinst cn iv ms =>
        let (res, st3) := sm.handle_operator st2 (.vinst cn iv ms) op (some right_val)
        (res, st3, r2)
      | _ => (natOp op left_val right_val, st2, r2)

/-- Rule 5 of eval_expr (lines 345 to 349): scope lookup, integer literal,
string literal, otherwise VariableNotDefined. -/
def evalAtom (scope : Dict Value) (st : Interp) (recv : Option Value) (expr : Str) :
    Res Value × Interp × Option Value :=
  match dget scope expr with
  | some v => (.ok v, st, recv)
  | none =>
    if isIntLit expr then (.ok (.vint (parseIntLit expr)), st, recv)
    else if isStrLit expr then (.ok (.vstr (stripQuotes expr)), st, recv)
    else (.error (mkErr .variableNotDefined
        (S "Expressão/Variável inválida: " ++ expr)), st, recv)

/-- Rules 3 to 5 of eval_expr: the fixed operator order, then the indexing
rule, then atoms.  `scope` is the binding view computed at entry to
eval_expr, which rules 4 and 5 consult even after rule-2 side effects. -/
def evalOps (sm : Sem) (scope : Dict Value) (st : Interp) (lv : Option (Dict Value))
    (recv : Option Value) (expr : Str) : Res Value × Interp × Option Value :=
  match splitFirst (S " + ") expr with
  | some (l, r) => evalBinop sm st lv recv (S "+") l r
  | none =>
  match splitFirst (S " == ") expr with
  | some (l, r) => evalBinop sm st lv recv (S "==") l r
  | none =>
  match splitFirst (S " > ") expr with
  | some (l, r) => evalBinop sm st lv recv (S ">") l r
  | none =>
  match splitFirst (S " < ") expr with
  | some (l, r) => evalBinop sm st lv recv (S "<") l r
  | none =>
  -- rule 4 (lines 330 to 342)
  if searchIndexShape expr then
    match matchIndexForm expr with
    | none => evalAtom scope st recv expr
    | some (var_name, index_expr) =>
      match dget scope var_name with
      | none => (.error (mkErr .variableNotDefined
          (S "Coleção " ++ var_name ++ S " não definida.")), st, recv)
      | some .vnone => (.error (mkErr .variableNotDefined
          (S "Coleção " ++ var_name ++ S " não definida.")), st, recv)
      | some collection =>
        match sm.eval_expr st none none index_expr with
        | (.error e, st1, _) => (.error e, st1, recv)
        | (.ok index_value, st1, _) =>
          match collection with
          | .vinst cn iv ms =>
            let (res, st2) := sm.handle_operator st1 (.vinst cn iv ms)
              (S "getitem") (some index_value)
            (res, st2, recv)
          | .vlist l =>
            match pyNum index_value with
            | some i => (pyListGet l i, st1, recv)
            | none => (.error (mkErr .pyError
                (S "TypeError: list indices must be integers")), st1, recv)
          | .vdict d =>
            match pyDictGet d index_value with
            | some v => (.ok v, st1, recv)
            | none => (.error (mkErr .pyError (S "KeyError")), st1, recv)
          | _ => evalAtom scope st1 recv expr
  else evalAtom scope st recv expr

/-- eval_expr (lines 247 to 349). -/
def eval_exprF (K : Ctx) (sm : Sem) (st0 : Interp) (local_vars : Option (Dict Value))
    (current_instance : Option Value) (expr0 : Str) :
    Res Value × Interp × Option Value :=
  let expr := pyStrip expr0
  let scope : Dict Value :=
    let s1 := dmerge st0.vars K.constants
    match local_vars with
    | some lvv => dmerge s1 lvv
    | none => s1
  match selfRead current_instance expr with
  | some r => (r, st0, current_instance)
  | none =>
    if containsChar expr '(' && endsWith (S ")") expr then
      match evalCallShape K sm st0 local_vars current_instance expr with
      | .inl d => d
      | .inr (st1, r1) => evalOps sm scope st1 local_vars r1 expr
    else evalOps sm scope st0 local_vars current_instance expr

/-- The capture-append branch of execute_line (lines 145 to 153): while any
block is open, the stripped line goes verbatim into the open buffer. -/
def captureAppend (st : Interp) (line : Str) : Interp :=
  if st.inIf then { st with ifLines := st.ifLines ++ [line] }
  else if st.inFor then { st with forBlock := st.forBlock ++ [line] }
  else if st.inWhile then { st with whileBlock := st.whileBlock ++ [line] }
  else if st.inFunc || st.inClass then { st with funcBlock := st.funcBlock ++ [line] }
  else if st.inTry then { st with tryBlock := st.tryBlock ++ [line] }
  else if st.inExcept then { st with exceptBlock := st.exceptBlock ++ [line] }
  else { st with nowBlock := st.nowBlock ++ [line] }

/-- The plain-name tail of the assignment command (lines 220 to 223):
constants check then write into the variables mapping. -/
def tyrtAssignPlain (K : Ctx) (r1 : Option Value) (var_expr : Str)
    (new_value : Value) (st2 : Interp) : Res Unit × Interp × Option Value :=
  if dhas K.constants var_expr then
    (.error (mkErr .constantReassignment
      (S "Constante " ++ var_expr ++ S " é imutável.")), st2, r1)
  else (.ok (), { st2 with vars := dset st2.vars var_expr new_value }, r1)

/-- The non-receiver part of the assignment command (lines 206 to 223):
the indexed-target attempt, falling back to the plain-name assignment. -/
def tyrtAssignTarget (K : Ctx) (sm : Sem) (st1 : Interp) (r1 : Option Value)
    (var_expr : Str) (new_value : Value) : Res Unit × Interp × Option Value :=
  match matchIndexForm var_expr with
  | none => tyrtAssignPlain K r1 var_expr new_value st1
  | some (var_name, index_expr) =>
    match dget st1.vars var_name with
    | none => (.error (mkErr .variableNotDefined
        (S "Coleção " ++ var_name ++ S " não definida.")), st1, r1)
    | some collection =>
      match sm.eval_expr st1 none none index_expr with
      | (.error e, st2, _) => (.error e, st2, r1)
      | (.ok index_value, st2, _) =>
        match collection with
        | .vinst cn iv ms =>
          if dhas ms (S "___setitem___") then
            match sm.call_method st2 (.vinst cn iv ms) (S "___setitem___")
                [index_value, new_value] with
            | (.ok _, st3, iOut) =>
              let st4 := { st3 with vars := dset st3.vars var_name (iOut.getD (.vinst cn iv ms)) }
              (.ok (), st4, r1)
            | (.error e, st3, iOut) =>
              let st4 := { st3 with vars := dset st3.vars var_name (iOut.getD (.vinst cn iv ms)) }
              (.error e, st4, r1)
          else tyrtAssignPlain K r1 var_expr new_value st2
        | .vlist l =>
          match pyNum index_value with
          | some i =>
            match pyListSet l i new_value with
            | .ok l2 =>
              (.ok (), { st2 with vars := dset st2.vars var_name (.vlist l2) }, r1)
            | .error e => (.error e, st2, r1)
          | none => (.error (mkErr .pyError
              (S "TypeError: list indices must be integers")), st2, r1)
        | .vdict d =>
          let st3 := { st2 with vars := dset st2.vars var_name (.vdict (pyDictSet d index_value new_value)) }
          (.ok (), st3, r1)
        | _ => tyrtAssignPlain K r1 var_expr new_value st2

/-- The assignment command of lines 196 to 223 (the "tyrt " branch when an
equals sign is present): (target text, right-hand side) already split. -/
def tyrtAssign (K : Ctx) (sm : Sem) (st : Interp) (current_instance : Option Value)
    (var_expr0 expr : Str) : Res Unit × Interp × Option Value :=
  let var_expr := pyStrip var_expr0
  match sm.eval_expr st none current_instance expr with
  | (.error e, st1, r1) => (.error e, st1, r1)
  | (.ok new_value, st1, r1) =>
    match r1, startsWith (S "self.") var_expr with
    | some (.vinst cn iv ms), true =>
      (.ok (), st1, some (.vinst cn (dset iv (pyStrip (var_expr.drop 5)) new_value) ms))
    | _, _ => tyrtAssignTarget K sm st1 r1 var_expr new_value

/-- The tail of execute_line after the assignment branch (lines 225 to
242): loop-control literals, the ignored return_object check, print, the
bare-call fallback, and the final LineNoRecognized. -/
def execLineTail (sm : Sem) (st : Interp) (current_instance : Option Value)
    (line : Str) : Res Unit × Interp × Option Value :=
  if line == S "loop.break" then (.error .brk, st, current_instance)
  else if line == S "loop.continue" then (.error .cont, st, current_instance)
  else
    -- line 227: a bare return_object line is checked and then ignored
    if startsWith (S "print|[") line then
      match sm.eval_expr st none current_instance (pyStrip ((line.drop 7).dropLast)) with
      | (.ok v, st1, r1) => (.ok (), { st1 with output := st1.output ++ [pyStrVal v] }, r1)
      | (.error e, st1, r1) => (.error e, st1, r1)
    else if containsChar line '(' && endsWith (S ")") line then
      match sm.eval_expr st none current_instance line with
      | (.ok _, st1, r1) => (.ok (), st1, r1)
      | (.error i, st1, r1) =>
        match i with
        | .err e =>
          if isTyrtErrorKind e.kind then
            (.error (mkErr .lineNoRecognized (S "Linha não reconhecida: " ++ line)),
             st1, r1)
          else (.error i, st1, r1)
        | _ => (.error i, st1, r1)
    else
      (.error (mkErr .lineNoRecognized (S "Linha não reconhecida: " ++ line)),
       st, current_instance)

/-- execute_line (lines 136 to 242). -/
def execute_lineF (K : Ctx) (sm : Sem) (st : Interp) (current_instance : Option Value)
    (line0 : Str) : Res Unit × Interp × Option Value :=
  let line := pyStrip line0
  if startsWith (S "/0") line || line.isEmpty then (.ok (), st, current_instance)
  else if line == [rbraceChar] then
    match sm.execute_block_end st with
    | (.ok _, st1) => (.ok (), st1, current_instance)
    | (.error e, st1) => (.error e, st1, current_instance)
  else if st.inIf || st.inFor || st.inWhile || st.inFunc || st.inClass ||
      st.inTry || st.inExcept || st.inNow then
    (.ok (), captureAppend st line, current_instance)
  else if startsWith (S "Try") line then
    let st1 := { st with inTry := true, tryBlock := [], exceptBlock := [], nowBlock := [], exceptVar := none }
    (.ok (), st1, current_instance)
  else if startsWith (S "Except") line then
    match matchExceptAs line with
    | some nm =>
      (.ok (), { st with exceptVar := some nm, inExcept := true, exceptBlock := [] },
       current_instance)
    | none =>
      if line == S "Except " ++ [lbraceChar] then
        let st1 := { st with exceptVar := some (S "tyrt_error_obj"), inExcept := true, exceptBlock := [] }
        (.ok (), st1, current_instance)
      else
        (.error (mkErr .invalidSyntax
          (S "Sintaxe de Except inválida. Use Except as nome_var ou Except.")),
         st, current_instance)
  else if startsWith (S "Now") line then
    (.ok (), { st with inNow := true, nowBlock := [] }, current_instance)
  else if startsWith (S "entr_i") line then
    match matchEntrI line with
    | none => (.error (mkErr .invalidSyntax (S "Sintaxe de entr_i inválida.")),
        st, current_instance)
    | some (v, d1, d2) =>
      let st1 := { st with forVar := v, forStart := d1, forEnd := d2, inFor := true, forBlock := [] }
      (.ok (), st1, current_instance)
  else if startsWith (S "/1") line then
    if !endsWith [lbraceChar] line then
      (.error (mkErr .invalidSyntax (S "Bloco /1 deve terminar com chave.")),
       st, current_instance)
    else
      let st1 := { st with whileCond := pyStrip ((line.drop 2).dropLast), inWhile := true, whileBlock := [] }
      (.ok (), st1, current_instance)
  else if startsWith (S "BILHETE_NADA") line then
    if !endsWith [lbraceChar] line then
      (.error (mkErr .invalidSyntax (S "Bloco BILHETE_NADA deve terminar com chave.")),
       st, current_instance)
    else
      let st1 := { st with inIf := true, ifLines := [] }
      match sm.eval_condition st1 (pyStrip ((line.drop 12).dropLast)) with
      | (.ok b, st2) => (.ok (), { st2 with ifActive := b }, current_instance)
      | (.error e, st2) => (.error e, st2, current_instance)
  else if startsWith (S "class ") line then
    match matchClass line with
    | none => (.error (mkErr .invalidSyntax (S "Sintaxe de classe inválida.")),
        st, current_instance)
    | some nm =>
      (.ok (), { st with inClass := true, className := nm, classMethods := [] },
       current_instance)
  else if startsWith (S "func ") line then
    match matchFunc line with
    | none => (.error (mkErr .invalidSyntax (S "Sintaxe de função inválida.")),
        st, current_instance)
    | some (nm, rawParams) =>
      let st1 := { st with inFunc := true, funcName := nm, funcParams := parseParams rawParams, funcBlock := [] }
      (.ok (), st1, current_instance)
  else if startsWith (S "tyrt ") line then
    match splitFirst (S "=") (pyStrip (line.drop 5)) with
    | some (var_expr0, expr) => tyrtAssign K sm st current_instance var_expr0 expr
    | none => execLineTail sm st current_instance line
  else execLineTail sm st current_instance line

/-- The body loop of execute_block (lines 433 to 437): some value on a
return_object line, none when falling off the end. -/
def execBlockLines (sm : Sem) :
    Interp → Option Value → List Str → Res (Option Value) × Interp × Option Value
  | st, inst, [] => (.ok none, st, inst)
  | st, inst, line :: rest =>
    if startsWith (S "return_object") line then
      match sm.eval_expr st (some st.vars) inst (pyStrip (line.drop 13)) with
      | (.ok v, st1, i1) => (.ok (some v), st1, i1)
      | (.error e, st1, i1) => (.error e, st1, i1)
    else
      match sm.execute_line st inst line with
      | (.ok _, st1, i1) => execBlockLines sm st1 i1 rest
      | (.error e, st1, i1) => (.error e, st1, i1)

/-- Body of execute_block after the scope swap: run the body lines,
re-classify escaped exceptions (loop signals and runtime errors
re-raised, anything outside the engine taxonomy wrapped into a
TyrtRuntimeError), and restore the saved variables on every exit path. -/
def execBlockCore (sm : Sem) (old_variables : Dict Value) (is_function_call : Bool)
    (st1 : Interp) (lines : List Str) (inst0 : Option Value) :
    Res Value × Interp × Option Value :=
  match execBlockLines sm st1 inst0 lines with
  | (res, st2, inst2) =>
    let res2 : Res (Option Value) :=
      match res with
      | .error (.err e) =>
        if isTyrtRuntimeErrorKind e.kind then .error (.err e)
        else if isTyrtErrorKind e.kind then .error (.err e)
        else .error (mkErr .tyrtRuntimeError
          (S "Erro interno: " ++ errClassName e.kind ++ S ": " ++ e.msg))
      | other => other
    let st3 := if is_function_call then { st2 with vars := old_variables } else st2
    match res2 with
    | .ok (some v) => (.ok v, st3, inst2)
    | .ok none => (.ok .vnone, st3, inst2)
    | .error i => (.error i, st3, inst2)

/-- execute_block (lines 426 to 446): record the saved variables and
whether a call-local scope is being swapped in, then run the body through
execBlockCore. -/
def execute_blockF (sm : Sem) (st : Interp) (lines : List Str)
    (local_vars : Option (Dict Value)) (inst0 : Option Value) :
    Res Value × Interp × Option Value :=
  execBlockCore sm st.vars local_vars.isSome
    (match local_vars with
     | some lvv => { st with vars := lvv }
     | none => st) lines inst0

/-- process_try_block (lines 374 to 401). -/
def process_try_blockF (sm : Sem) (st : Interp) : Res Unit × Interp :=
  let try_block := st.tryBlock
  let except_block := st.exceptBlock
  let now_block := st.nowBlock
  let step1 : Res (Option TyrtErr) × Interp :=
    match sm.execute_block st try_block none none with
    | (.ok _, st1, _) => (.ok none, st1)
    | (.error (.err e), st1, _) =>
      if isTyrtRuntimeErrorKind e.kind then (.ok (some e), st1)
      else (.error (.err e), st1)
    | (.error i, st1, _) => (.error i, st1)
  match step1 with
  | (.error i, st1) => (.error i, st1)
  | (.ok error_caught, st1) =>
    let step2 : Res Unit × Interp :=
      match error_caught with
      | some e =>
        if except_block.isEmpty then (.ok (), st1)
        else
          let nm := match st1.exceptVar with
            | some n => n
            | none => S "None"
          let st2 := { st1 with vars := dset st1.vars nm (.verr e) }
          match sm.execute_block st2 except_block none none with
          | (.ok _, st3, _) => (.ok (), st3)
          | (.error i, st3, _) => (.error i, st3)
      | none => (.ok (), st1)
    match step2 with
    | (.error i, st3) => (.error i, st3)
    | (.ok _, st3) =>
      if now_block.isEmpty then
        (.ok (), { st3 with tryBlock := [], exceptBlock := [], nowBlock := [] })
      else
        match sm.execute_block st3 now_block none none with
        | (.ok _, st4, _) =>
          (.ok (), { st4 with tryBlock := [], exceptBlock := [], nowBlock := [] })
        | (.error i, st4, _) => (.error i, st4)

/-- The iteration of process_for_block (lines 407 to 411). -/
def forGo (sm : Sem) : Interp → Str → List Str → Int → Nat → Res Unit × Interp
  | st, _, _, _, 0 => (.ok (), st)
  | st, v, block, i, n + 1 =>
    let st1 := { st with vars := dset st.vars v (.vint i) }
    match sm.execute_block st1 block none none with
    | (.ok _, st2, _) => forGo sm st2 v block (i + 1) n
    | (.error .brk, st2, _) => (.ok (), st2)
    | (.error .cont, st2, _) => forGo sm st2 v block (i + 1) n
    | (.error i2, st2, _) => (.error i2, st2)

/-- process_for_block (lines 405 to 412). -/
def process_for_blockF (sm : Sem) (st : Interp) : Res Unit × Interp :=
  match pyParseIntStr st.forStart with
  | .error e => (.error e, st)
  | .ok start_val =>
    match pyParseIntStr st.forEnd with
    | .error e => (.error e, st)
    | .ok end_val =>
      match forGo sm st st.forVar st.forBlock start_val (end_val + 1 - start_val).toNat with
      | (.ok _, st1) => (.ok (), { st1 with forBlock := [] })
      | (.error e, st1) => (.error e, st1)

/-- The iteration of process_while_block (lines 416 to 419); the condition
text is re-read from the state before each pass, the body is the fixed
local captured at entry. -/
def whileGo (sm : Sem) : Nat → Interp → List Str → Res Unit × Interp
  | 0, st, _ => (.error .outOfFuel, st)
  | n + 1, st, block =>
    match sm.eval_condition st st.whileCond with
    | (.error e, st1) => (.error e, st1)
    | (.ok false, st1) => (.ok (), st1)
    | (.ok true, st1) =>
      match sm.execute_block st1 block none none with
      | (.ok _, st2, _) => whileGo sm n st2 block
      | (.error .brk, st2, _) => (.ok (), st2)
      | (.error .cont, st2, _) => whileGo sm n st2 block
      | (.error i, st2, _) => (.error i, st2)

/-- process_while_block (lines 414 to 420). -/
def process_while_blockF (sm : Sem) (iters : Nat) (st : Interp) : Res Unit × Interp :=
  match whileGo sm iters st st.whileBlock with
  | (.ok _, st1) => (.ok (), { st1 with whileCond := [], whileBlock := [] })
  | (.error e, st1) => (.error e, st1)

/-- process_current_if_block (lines 422 to 424). -/
def process_if_blockF (sm : Sem) (st : Interp) : Res Unit × Interp :=
  if st.ifActive then
    match sm.execute_block st st.ifLines none none with
    | (.ok _, st1, _) => (.ok (), { st1 with ifActive := false, ifLines := [] })
    | (.error e, st1, _) => (.error e, st1)
  else (.ok (), { st with ifActive := false, ifLines := [] })

/-- execute_block_end (lines 354 to 372).  The try and except branches
clear their flag and fall through (the source has no return on those two
lines), so a terminator that closes a Try or Except capture continues into
the stray-terminator error when no further construct is open. -/
def execute_block_endF (sm : Sem) (st : Interp) : Res Unit × Interp :=
  if st.inClass then
    if st.inFunc then
      let st1 := { st with classMethods := dset st.classMethods st.funcName (st.funcParams, st.funcBlock), inFunc := false, funcBlock := [] }
      (.ok (), st1)
    else
      let st1 := { st with classes := dset st.classes st.className st.classMethods, inClass := false, classMethods := [] }
      (.ok (), st1)
  else if st.inFunc then
    let st1 := { st with functions := dset st.functions st.funcName (st.funcParams, st.funcBlock), inFunc := false, funcBlock := [] }
    (.ok (), st1)
  else if st.inNow then
    match sm.process_try_block st with
    | (.ok _, st1) => (.ok (), { st1 with inNow := false })
    | (.error e, st1) => (.error e, st1)
  else
    let stA := if st.inExcept then { st with inExcept := false } else st
    let stB := if stA.inTry then { stA with inTry := false } else stA
    if stB.inFor then
      match sm.process_for_block stB with
      | (.ok _, st1) => (.ok (), { st1 with inFor := false })
      | (.error e, st1) => (.error e, st1)
    else if stB.inWhile then
      match sm.process_while_block stB with
      | (.ok _, st1) => (.ok (), { st1 with inWhile := false })
      | (.error e, st1) => (.error e, st1)
    else if stB.inIf then
      match sm.process_if_block stB with
      | (.ok _, st1) => (.ok (), { st1 with inIf := false })
      | (.error e, st1) => (.error e, st1)
    else
      (.error (mkErr .lineNoRecognized (S "\x7d sem bloco ativo")), stB)

/-- eval_condition (lines 448 to 450). -/
def eval_conditionF (sm : Sem) (st : Interp) (cond : Str) : Res Bool × Interp :=
  match sm.eval_expr st none none cond with
  | (.ok v, st1, _) => (.ok (pyBool v), st1)
  | (.error e, st1, _) => (.error e, st1)

/-- call_method of TyrtInstance (lines 25 to 38): method lookup, arity
check excluding a leading self parameter, fresh call-local scope, body
execution with the instance as receiver. -/
def call_methodF (sm : Sem) (st : Interp) (selfv : Value) (method_name : Str)
    (args_list : List Value) : Res Value × Interp × Option Value :=
  match selfv with
  | .vinst cn _ ms =>
    match dget ms method_name with
    | none =>
      (.error (mkErr .invalidMethodCall
        (S "Método " ++ method_name ++ S " não encontrado na classe " ++ cn ++ S ".")),
       st, some selfv)
    | some (params, body) =>
      let expected :=
        match params with
        | p :: rest2 => if p == S "self" then rest2 else params
        | [] => params
      if expected.length != args_list.length then
        (.error (mkErr .invalidMethodCall
          (S "Método " ++ method_name ++ S ": " ++ natToChars args_list.length ++
           S " argumentos dados, mas " ++ natToChars expected.length ++
           S " esperados.")), st, some selfv)
      else
        sm.execute_block st body (some (buildZipScope expected args_list)) (some selfv)
  | _ =>
    (.error (mkErr .pyError (S "AttributeError")), st, some selfv)

/-- handle_operator of TyrtInstance (lines 40 to 52): DUNDER_MAP lookup and
overload presence check in one condition, then invocation: zero arguments
for print and len, otherwise the other operand as the sole argument. -/
def handle_operatorF (sm : Sem) (st : Interp) (selfv : Value) (op_symbol : Str)
    (other_obj : Option Value) : Res Value × Interp :=
  match selfv with
  | .vinst cn _ ms =>
    let notImpl : Res Value × Interp :=
      (.error (mkErr .notImplementedError
        (S "O operador " ++ op_symbol ++ S " não está implementado na classe " ++
         cn ++ S ".")), st)
    match dget DUNDER_MAP op_symbol with
    | none => notImpl
    | some dunder_method =>
      if !dhas ms dunder_method then notImpl
      else if op_symbol == S "print" || op_symbol == S "len" then
        match sm.call_method st selfv dunder_method [] with
        | (res, st1, _) => (res, st1)
      else
        match sm.call_method st selfv dunder_method [other_obj.getD .vnone] with
        | (res, st1, _) => (res, st1)
  | _ => (.error (mkErr .pyError (S "AttributeError")), st)

/-- The fuel-exhausted level: every operation reports out of fuel with the
state unchanged. -/
def semZero : Sem where
  eval_expr := fun st _ r _ => (.error .outOfFuel, st, r)
  execute_line := fun st r _ => (.error .outOfFuel, st, r)
  execute_block := fun st _ _ i => (.error .outOfFuel, st, i)
  execute_block_end := fun st => (.error .outOfFuel, st)
  process_try_block := fun st => (.error .outOfFuel, st)
  process_for_block := fun st => (.error .outOfFuel, st)
  process_while_block := fun st => (.error .outOfFuel, st)
  process_if_block := fun st => (.error .outOfFuel, st)
  eval_condition := fun st _ => (.error .outOfFuel, st)
  call_method := fun st s _ _ => (.error .outOfFuel, st, some s)
  handle_operator := fun st _ _ _ => (.error .outOfFuel, st)

/-- The interpreter semantics at a given recursion depth: every mutual
call of the Python source goes through the record one level down. -/
def sem (K : Ctx) : Nat → Sem
  | 0 => semZero
  | n + 1 =>
    let prev := sem K n
    { eval_expr := eval_exprF K prev
      execute_line := execute_lineF K prev
      execute_block := execute_blockF prev
      execute_block_end := execute_block_endF prev
      process_try_block := process_try_blockF prev
      process_for_block := process_for_blockF prev
      process_while_block := process_while_blockF prev n
      process_if_block := process_if_blockF prev
      eval_condition := eval_conditionF prev
      call_method := call_methodF prev
      handle_operator := handle_operatorF prev }

def eval_expr (K : Ctx) (fuel : Nat) : Interp → Option (Dict Value) → Option Value →
    Str → Res Value × Interp × Option Value := (sem K fuel).eval_expr

def execute_line (K : Ctx) (fuel : Nat) : Interp → Option Value → Str →
    Res Unit × Interp × Option Value := (sem K fuel).execute_line

def execute_block (K : Ctx) (fuel : Nat) : Interp → List Str →
    Option (Dict Value) → Option Value → Res Value × Interp × Option Value :=
  (sem K fuel).execute_block

def execute_block_end (K : Ctx) (fuel : Nat) : Interp → Res Unit × Interp :=
  (sem K fuel).execute_block_end

def call_method (K : Ctx) (fuel : Nat) : Interp → Value → Str → List Value →
    Res Value × Interp × Option Value := (sem K fuel).call_method

def handle_operator (K : Ctx) (fuel : Nat) : Interp → Value → Str → Option Value →
    Res Value × Interp := (sem K fuel).handle_operator

/-- Outcome of run (lines 95 to 131): every line executed, or the first
escaped exception with its line number, reported either as an uncaught
Tyrt error or as an internal interpreter error, after which the run halts. -/
inductive RunOutcome where
  | finished
  | uncaughtTyrt : TyrtErr → Nat → RunOutcome
  | internal : Interrupt → Nat → RunOutcome
  | fuelOut : RunOutcome
deriving DecidableEq, Repr

def runGo (sm : Sem) : Interp → Nat → List Str → RunOutcome × Interp
  | st, _, [] => (.finished, st)
  | st, ln, l :: rest =>
    match sm.execute_line st none l with
    | (.ok _, st1, _) => runGo sm st1 (ln + 1) rest
    | (.error (.err e), st1, _) =>
      if isTyrtErrorKind e.kind then (.uncaughtTyrt e ln, st1)
      else (.internal (.err e) ln, st1)
    | (.error .outOfFuel, st1, _) => (.fuelOut, st1)
    | (.error i, st1, _) => (.internal i ln, st1)

/-- The line loop of run (lines 122 to 129) over an already split line
list, starting at line number 1. -/
def runLines (K : Ctx) (fuel : Nat) (lines : List Str) (st : Interp) :
    RunOutcome × Interp := runGo (sem K fuel) st 1 lines

/-- The Try/Except/Now example script of the spec, one line per element,
each block closed by a bare terminator line. -/
def c1Script : List Str :=
  [S "Try \x7b", S "tyrt x = 1/0", S "\x7d",
   S "Except as e \x7b", S "print|[e]", S "\x7d",
   S "Now \x7b", S "print|[99]", S "\x7d"]

/-- A class defined with exactly one method. -/
def c2Script : List Str :=
  [S "class Foo \x7b", S "func bar(a) \x7b", S "return_object a", S "\x7d", S "\x7d"]

/-- A state with one global variable and one registered zero-parameter
function whose body reads that global. -/
def c3State : Interp :=
  { vars := [(S "g", Value.vint 5)],
    functions := [(S "f", ([], [S "return_object g"]))] }

/-- A context whose constants mapping binds the name c. -/
def c5Ctx : Ctx := { constants := [(S "c", Value.vint 1)] }

/-- A method table defining every overload name DUNDER_MAP can produce,
plus plausible print/len overload names, so that no overload can be said
to be missing. -/
def c6AllMethods : MethodTable :=
  (DUNDER_MAP.map (fun p => (p.2, ([S "self", S "o"], [S "return_object 7"])))) ++
  [(S "___print___", (([S "self"] : List Str), [S "return_object 7"])),
   (S "___len___", (([S "self"] : List Str), [S "return_object 7"])),
   (S "___str___", (([S "self"] : List Str), [S "return_object 7"]))]

/-- A one-argument add overload, for exercising the mapped-operator path. -/
def c6AddMethods : MethodTable :=
  [(S "___add___", ([S "self", S "o"], [S "return_object 7"]))]

theorem bool_eq_false_of (b : Bool) (h : b = true → False) : b = false := by
  cases b
  · rfl
  · exact absurd rfl h

theorem isPrefixOf_append_self (p r : Str) : List.isPrefixOf p (p ++ r) = true := by
  induction p with
  | nil => simp [List.isPrefixOf]
  | cons a t ih => simp [List.isPrefixOf, ih]

theorem isPrefixOf_mem (p s : Str) (h : List.isPrefixOf p s = true) :
    ∀ c ∈ p, c ∈ s := by
  intro c hc
  exact ((List.isPrefixOf_iff_prefix.mp h).sublist.subset) hc

theorem startsWith_mem (p s : Str) (h : startsWith p s = true) : ∀ c ∈ p, c ∈ s :=
  isPrefixOf_mem p s h

theorem endsWith_mem (p s : Str) (h : endsWith p s = true) : ∀ c ∈ p, c ∈ s := by
  intro c hc
  have := isPrefixOf_mem p.reverse s.reverse h c (List.mem_reverse.mpr hc)
  exact List.mem_reverse.mp this

theorem startsWith_false_of_missing (p s : Str) (c : Char) (hc : c ∈ p) (hs : c ∉ s) :
    startsWith p s = false :=
  bool_eq_false_of _ (fun h => hs (startsWith_mem p s h c hc))

theorem endsWith_false_of_missing (p s : Str) (c : Char) (hc : c ∈ p) (hs : c ∉ s) :
    endsWith p s = false :=
  bool_eq_false_of _ (fun h => hs (endsWith_mem p s h c hc))

theorem containsChar_false_of (s : Str) (c : Char) (h : c ∉ s) :
    containsChar s c = false := by
  unfold containsChar
  simpa using h

theorem splitFirst_cons_eq (sep : Str) (c : Char) (t : Str) :
    splitFirst sep (c :: t) =
      if List.isPrefixOf sep (c :: t) then some ([], (c :: t).drop sep.length)
      else
        match splitFirst sep t with
        | some (l, r) => some (c :: l, r)
        | none => none := rfl

theorem splitFirst_some_mem (sep s : Str) (p : Str × Str)
    (h : splitFirst sep s = some p) : ∀ c ∈ sep, c ∈ s := by
  induction s generalizing p with
  | nil =>
    unfold splitFirst at h
    by_cases hp : List.isPrefixOf sep ([] : Str) = true
    · intro c hc
      cases sep with
      | nil => cases hc
      | cons a t => simp [List.isPrefixOf] at hp
    · rw [Bool.not_eq_true] at hp
      simp [hp] at h
  | cons a t ih =>
    rw [splitFirst_cons_eq] at h
    by_cases hp : List.isPrefixOf sep (a :: t) = true
    · intro c hc
      exact isPrefixOf_mem sep (a :: t) hp c hc
    · rw [Bool.not_eq_true] at hp
      simp only [hp, Bool.false_eq_true, if_false] at h
      intro c hc
      cases hsp : splitFirst sep t with
      | none => rw [hsp] at h; cases h
      | some q => exact List.mem_cons_of_mem _ (ih q hsp c hc)

theorem splitFirst_none_of_not_mem (sep s : Str) (c : Char) (hc : c ∈ sep)
    (hs : c ∉ s) : splitFirst sep s = none := by
  cases hsp : splitFirst sep s with
  | none => rfl
  | some p => exact absurd (splitFirst_some_mem sep s p hsp c hc) hs

theorem splitFirst_first_occ (c0 : Char) (sep2 pre suf : Str) (h : c0 ∉ pre) :
    splitFirst (c0 :: sep2) (pre ++ (c0 :: sep2) ++ suf) = some (pre, suf) := by
  induction pre with
  | nil =>
    rw [List.nil_append, List.cons_append, splitFirst_cons_eq]
    have h1 : List.isPrefixOf (c0 :: sep2) (c0 :: (sep2 ++ suf)) = true := by
      rw [← List.cons_append]
      exact isPrefixOf_append_self _ _
    simp only [h1, if_true]
    have h2 : (c0 :: (sep2 ++ suf)).drop (c0 :: sep2).length = suf := by
      rw [← List.cons_append, List.drop_left]
    rw [h2]
  | cons a t ih =>
    have hne : c0 ≠ a := by
      intro he
      exact h (by rw [he]; exact List.mem_cons_self a t)
    rw [List.cons_append, List.cons_append, splitFirst_cons_eq]
    have h1 : List.isPrefixOf (c0 :: sep2) (a :: (t ++ (c0 :: sep2) ++ suf)) = false := by
      simp only [List.isPrefixOf]
      rw [Bool.and_eq_false_iff]
      left
      cases hb : c0 == a
      · rfl
      · exact absurd (by simpa [beq_iff_eq] using hb) hne
    rw [h1]
    simp only [Bool.false_eq_true, if_false]
    rw [ih (fun hm => h (List.mem_cons_of_mem _ hm))]

theorem dget_dset_ne {α : Type} (d : Dict α) (k1 k2 : Str) (v : α)
    (h : (k1 == k2) = false) : dget (dset d k1 v) k2 = dget d k2 := by
  induction d with
  | nil => simp [dset, dget, h]
  | cons p t ih =>
    unfold dset
    by_cases hp : (p.1 == k1) = true
    · have : p.1 = k1 := by simpa [beq_iff_eq] using hp
      simp [hp, dget, this, h]
    · rw [Bool.not_eq_true] at hp
      simp only [hp, Bool.false_eq_true, if_false]
      unfold dget
      by_cases hq : (p.1 == k2) = true
      · simp [hq]
      · rw [Bool.not_eq_true] at hq
        simp [hq, ih]

theorem dget_dmerge_none {α : Type} (a b : Dict α) (k : Str)
    (ha : dget a k = none) (hb : dget b k = none) : dget (dmerge a b) k = none := by
  induction b generalizing a with
  | nil => simpa [dmerge]
  | cons p t ih =>
    unfold dget at hb
    by_cases hp : (p.1 == k) = true
    · simp [hp] at hb
    · rw [Bool.not_eq_true] at hp
      simp only [hp, Bool.false_eq_true, if_false] at hb
      show dget (dmerge (dset a p.1 p.2) t) k = none
      exact ih (dset a p.1 p.2) (by rw [dget_dset_ne _ _ _ _ hp]; exact ha) hb

theorem dropWhile_eq_self_of_head (p : Char → Bool) (s : Str)
    (h : ∀ c, s.head? = some c → p c = false) : s.dropWhile p = s := by
  cases s with
  | nil => rfl
  | cons a t => rw [List.dropWhile_cons, h a rfl]; simp

theorem pyStrip_eq_self (s : Str)
    (h1 : ∀ c, s.head? = some c → pySpace c = false)
    (h2 : ∀ c, s.getLast? = some c → pySpace c = false) : pyStrip s = s := by
  unfold pyStrip
  rw [dropWhile_eq_self_of_head pySpace s h1]
  rw [dropWhile_eq_self_of_head pySpace s.reverse
    (fun c hc => h2 c (by rwa [List.head?_reverse] at hc))]
  exact List.reverse_reverse s

theorem pyStrip_eq_self_of_forall (s : Str) (h : ∀ c ∈ s, pySpace c = false) :
    pyStrip s = s := by
  refine pyStrip_eq_self s (fun c hc => h c ?_) (fun c hc => h c ?_)
  · exact List.mem_of_mem_head? hc
  · exact List.mem_of_getLast?_eq_some hc

theorem wordChar_not_space (c : Char) (h : wordChar c = true) : pySpace c = false := by
  cases hsp : pySpace c
  · rfl
  · exfalso
    simp only [pySpace, Bool.or_eq_true, beq_iff_eq] at hsp
    rcases hsp with ((((rfl | rfl) | rfl) | rfl) | rfl) | rfl <;> simp [wordChar] at h

theorem not_mem_of_all_wordChar (s : Str) (h : ∀ c ∈ s, wordChar c = true)
    (x : Char) (hx : wordChar x = false) : x ∉ s := by
  intro hm
  rw [h x hm] at hx
  cases hx

theorem isDigit_ne (c x : Char) (h : c.isDigit = true) (hx : x.isDigit = false) :
    c ≠ x := by
  intro he
  rw [he, hx] at h
  cases h

theorem digitChar_isDigit (n : Nat) (h : n < 10) : (digitChar n).isDigit = true := by
  interval_cases n <;> decide

theorem digitVal_digitChar (n : Nat) (h : n < 10) : digitVal (digitChar n) = n := by
  interval_cases n <;> decide

theorem parseNatDigits_append_singleton (xs : Str) (d : Char) :
    parseNatDigits (xs ++ [d]) = 10 * parseNatDigits xs + digitVal d := by
  unfold parseNatDigits
  rw [List.foldl_append]
  rfl

theorem natToCharsAux_spec (f : Nat) : ∀ n, n < f →
    natToCharsAux f n ≠ [] ∧ (∀ c ∈ natToCharsAux f n, c.isDigit = true) ∧
      parseNatDigits (natToCharsAux f n) = n := by
  induction f with
  | zero => intro n h; omega
  | succ f ih =>
    intro n h
    unfold natToCharsAux
    by_cases h10 : n < 10
    · simp only [h10, if_true]
      refine ⟨by simp, ?_, ?_⟩
      · intro c hc
        rw [List.mem_singleton] at hc
        rw [hc]
        exact digitChar_isDigit n h10
      · show parseNatDigits ([] ++ [digitChar n]) = n
        rw [parseNatDigits_append_singleton]
        simp [parseNatDigits, digitVal_digitChar n h10]
    · simp only [h10, if_false]
      have hdiv : n / 10 < f := by omega
      obtain ⟨hne, hdig, hval⟩ := ih (n / 10) hdiv
      refine ⟨by simp [hne], ?_, ?_⟩
      · intro c hc
        rw [List.mem_append] at hc
        rcases hc with hc | hc
        · exact hdig c hc
        · rw [List.mem_singleton] at hc
          rw [hc]
          exact digitChar_isDigit (n % 10) (Nat.mod_lt n (by omega))
      · rw [parseNatDigits_append_singleton, hval,
          digitVal_digitChar (n % 10) (Nat.mod_lt n (by omega))]
        omega

theorem natToChars_ne_nil (n : Nat) : natToChars n ≠ [] :=
  (natToCharsAux_spec (n + 1) n (Nat.lt_succ_self n)).1

theorem natToChars_digits (n : Nat) : ∀ c ∈ natToChars n, c.isDigit = true :=
  (natToCharsAux_spec (n + 1) n (Nat.lt_succ_self n)).2.1

theorem parseNatDigits_natToChars (n : Nat) : parseNatDigits (natToChars n) = n :=
  (natToCharsAux_spec (n + 1) n (Nat.lt_succ_self n)).2.2

theorem intToStr_chars (i : Int) : ∀ c ∈ intToStr i, c.isDigit = true ∨ c = '-' := by
  intro c hc
  unfold intToStr at hc
  by_cases hneg : i < 0
  · simp only [hneg, if_true] at hc
    rcases List.mem_cons.mp hc with rfl | hm
    · right; rfl
    · left; exact natToChars_digits _ c hm
  · simp only [hneg, if_false] at hc
    left; exact natToChars_digits _ c hc

theorem intToStr_ne_nil (i : Int) : intToStr i ≠ [] := by
  unfold intToStr
  by_cases hneg : i < 0
  · simp [hneg]
  · simp [hneg, natToChars_ne_nil]

theorem isIntLit_cons (c : Char) (t : Str) :
    isIntLit (c :: t) =
      if c = '-' then !t.isEmpty && t.all Char.isDigit else (c :: t).all Char.isDigit := rfl

theorem parseIntLit_cons (c : Char) (t : Str) :
    parseIntLit (c :: t) =
      if c = '-' then -(parseNatDigits t : Int) else (parseNatDigits (c :: t) : Int) := rfl

theorem isIntLit_intToStr (i : Int) : isIntLit (intToStr i) = true := by
  unfold intToStr
  by_cases hneg : i < 0
  · simp only [hneg, if_true]
    rw [isIntLit_cons, if_pos rfl]
    have h1 : (natToChars i.natAbs).isEmpty = false := by
      cases hn : natToChars i.natAbs with
      | nil => exact absurd hn (natToChars_ne_nil _)
      | cons a t => rfl
    rw [h1]
    simp only [Bool.not_false, Bool.true_and]
    rw [List.all_eq_true]
    exact natToChars_digits _
  · simp only [hneg, if_false]
    cases hn : natToChars i.toNat with
    | nil => exact absurd hn (natToChars_ne_nil _)
    | cons a t =>
      have ha : a.isDigit = true := natToChars_digits i.toNat a (by rw [hn]; simp)
      rw [isIntLit_cons, if_neg (isDigit_ne a '-' ha (by decide))]
      rw [List.all_eq_true]
      intro c hc
      exact natToChars_digits i.toNat c (by rw [hn]; exact hc)

theorem parseIntLit_intToStr (i : Int) : parseIntLit (intToStr i) = i := by
  unfold intToStr
  by_cases hneg : i < 0
  · simp only [hneg, if_true]
    rw [parseIntLit_cons, if_pos rfl, parseNatDigits_natToChars]
    omega
  · simp only [hneg, if_false]
    cases hn : natToChars i.toNat with
    | nil => exact absurd hn (natToChars_ne_nil _)
    | cons a t =>
      have ha : a.isDigit = true := natToChars_digits i.toNat a (by rw [hn]; simp)
      rw [parseIntLit_cons, if_neg (isDigit_ne a '-' ha (by decide))]
      rw [← hn, parseNatDigits_natToChars]
      omega

theorem intToStr_not_space (i : Int) : ∀ c ∈ intToStr i, pySpace c = false := by
  intro c hc
  rcases intToStr_chars i c hc with hd | rfl
  · cases hsp : pySpace c
    · rfl
    · exfalso
      simp only [pySpace, Bool.or_eq_true, beq_iff_eq] at hsp
      rcases hsp with ((((rfl | rfl) | rfl) | rfl) | rfl) | rfl <;> simp at hd
  · decide

theorem intToStr_not_mem (i : Int) (x : Char) (hx1 : x.isDigit = false)
    (hx2 : x ≠ '-') : x ∉ intToStr i := by
  intro hm
  rcases intToStr_chars i x hm with hd | he
  · rw [hd] at hx1; cases hx1
  · exact hx2 he

theorem takeWhile_all (p : Char → Bool) (s : Str) (h : ∀ c ∈ s, p c = true) :
    s.takeWhile p = s := by
  induction s with
  | nil => rfl
  | cons a t ih =>
    rw [List.takeWhile_cons, h a (List.mem_cons_self a t)]
    simp only [if_true]
    rw [ih (fun c hc => h c (List.mem_cons_of_mem _ hc))]

theorem wordChar_ne (c x : Char) (h : wordChar c = true) (hx : wordChar x = false) :
    c ≠ x := by
  intro he
  rw [he, hx] at h
  cases h

theorem isStrLit_cons (c : Char) (t : Str) :
    isStrLit (c :: t) =
      if c = '"' then !t.isEmpty && t.getLast? == some '"' else false := rfl

theorem matchIndexForm_none_of_word (g : Str) (h : ∀ c ∈ g, wordChar c = true) :
    matchIndexForm g = none := by
  unfold matchIndexForm
  rw [takeWhile_all wordChar g h]
  by_cases hg : g.isEmpty
  · simp [hg]
  · simp only [hg, Bool.false_eq_true, if_false]
    rw [List.drop_length]
    rfl

theorem evalAtom_vnd (scope : Dict Value) (st : Interp) (recv : Option Value) (g : Str)
    (hs : dget scope g = none) (hne : g ≠ []) (hword : ∀ c ∈ g, wordChar c = true)
    (hhead : ∀ c, g.head? = some c → c.isDigit = false) :
    evalAtom scope st recv g =
      (.error (mkErr .variableNotDefined (S "Expressão/Variável inválida: " ++ g)),
       st, recv) := by
  unfold evalAtom
  rw [hs]
  cases g with
  | nil => exact absurd rfl hne
  | cons c t =>
    have hc : c.isDigit = false := hhead c rfl
    have hcw : wordChar c = true := hword c (List.mem_cons_self c t)
    have h1 : isIntLit (c :: t) = false := by
      rw [isIntLit_cons, if_neg (wordChar_ne c '-' hcw (by decide))]
      simp [hc]
    have h2 : isStrLit (c :: t) = false := by
      rw [isStrLit_cons, if_neg (wordChar_ne c '"' hcw (by decide))]
    rw [h1, h2]
    simp

theorem evalOps_word (sm : Sem) (scope : Dict Value) (st : Interp)
    (lv : Option (Dict Value)) (recv : Option Value) (g : Str)
    (hword : ∀ c ∈ g, wordChar c = true) :
    evalOps sm scope st lv recv g = evalAtom scope st recv g := by
  have h1 : splitFirst (S " + ") g = none :=
    splitFirst_none_of_not_mem _ _ '+' (by decide)
      (not_mem_of_all_wordChar g hword '+' (by decide))
  have h2 : splitFirst (S " == ") g = none :=
    splitFirst_none_of_not_mem _ _ '=' (by decide)
      (not_mem_of_all_wordChar g hword '=' (by decide))
  have h3 : splitFirst (S " > ") g = none :=
    splitFirst_none_of_not_mem _ _ '>' (by decide)
      (not_mem_of_all_wordChar g hword '>' (by decide))
  have h4 : splitFirst (S " < ") g = none :=
    splitFirst_none_of_not_mem _ _ '<' (by decide)
      (not_mem_of_all_wordChar g hword '<' (by decide))
  have h5 : searchIndexShape g = false := by
    unfold searchIndexShape
    rw [endsWith_false_of_missing (S "]") g ']' (by decide)
      (not_mem_of_all_wordChar g hword ']' (by decide))]
    rfl
  unfold evalOps
  rw [h1, h2, h3, h4, h5]
  rfl

theorem evalOps_atomic (sm : Sem) (scope : Dict Value) (st : Interp)
    (lv : Option (Dict Value)) (recv : Option Value) (g : Str)
    (h1 : '+' ∉ g) (h2 : '=' ∉ g) (h3 : '>' ∉ g) (h4 : '<' ∉ g) (h5 : ']' ∉ g) :
    evalOps sm scope st lv recv g = evalAtom scope st recv g := by
  have e1 : splitFirst (S " + ") g = none :=
    splitFirst_none_of_not_mem _ _ '+' (by decide) h1
  have e2 : splitFirst (S " == ") g = none :=
    splitFirst_none_of_not_mem _ _ '=' (by decide) h2
  have e3 : splitFirst (S " > ") g = none :=
    splitFirst_none_of_not_mem _ _ '>' (by decide) h3
  have e4 : splitFirst (S " < ") g = none :=
    splitFirst_none_of_not_mem _ _ '<' (by decide) h4
  have e5 : searchIndexShape g = false := by
    unfold searchIndexShape
    rw [endsWith_false_of_missing (S "]") g ']' (by decide) h5]
    rfl
  unfold evalOps
  rw [e1, e2, e3, e4, e5]
  rfl

/-- Projection equations for one unfolding of the fuel-indexed semantics. -/
theorem sem_eval_expr (K : Ctx) (n : Nat) :
    (sem K (n + 1)).eval_expr = eval_exprF K (sem K n) := rfl

theorem sem_execute_line (K : Ctx) (n : Nat) :
    (sem K (n + 1)).execute_line = execute_lineF K (sem K n) := rfl

theorem sem_execute_block (K : Ctx) (n : Nat) :
    (sem K (n + 1)).execute_block = execute_blockF (sem K n) := rfl

theorem sem_execute_block_end (K : Ctx) (n : Nat) :
    (sem K (n + 1)).execute_block_end = execute_block_endF (sem K n) := rfl

theorem sem_call_method (K : Ctx) (n : Nat) :
    (sem K (n + 1)).call_method = call_methodF (sem K n) := rfl

theorem sem_handle_operator (K : Ctx) (n : Nat) :
    (sem K (n + 1)).handle_operator = handle_operatorF (sem K n) := rfl

theorem eval_exprF_render (sm : Sem) (i : Int) :
    eval_exprF {} sm {} none none (intToStr i) = (.ok (.vint i), ({} : Interp), none) := by
  have hstrip : pyStrip (intToStr i) = intToStr i :=
    pyStrip_eq_self_of_forall _ (intToStr_not_space i)
  have hpar : containsChar (intToStr i) '(' = false :=
    containsChar_false_of _ _ (intToStr_not_mem i '(' (by decide) (by decide))
  unfold eval_exprF
  simp only [hstrip]
  have hself : selfRead none (intToStr i) = none := rfl
  rw [hself, hpar]
  simp only [Bool.false_and, Bool.false_eq_true, if_false]
  rw [evalOps_atomic _ _ _ _ _ _
    (intToStr_not_mem i '+' (by decide) (by decide))
    (intToStr_not_mem i '=' (by decide) (by decide))
    (intToStr_not_mem i '>' (by decide) (by decide))
    (intToStr_not_mem i '<' (by decide) (by decide))
    (intToStr_not_mem i ']' (by decide) (by decide))]
  unfold evalAtom
  rw [show dget (dmerge (({} : Interp).vars) (({} : Ctx).constants)) (intToStr i) = none from rfl]
  rw [isIntLit_intToStr i]
  simp only [if_true]
  rw [parseIntLit_intToStr i]

theorem not_mem_render_concat (a b : Int) (M : Str) (x : Char)
    (h1 : x.isDigit = false) (h2 : x ≠ '-') (hM : x ∉ M) :
    x ∉ intToStr a ++ M ++ intToStr b := by
  intro hm
  rcases List.mem_append.mp hm with hm1 | hm2
  · rcases List.mem_append.mp hm1 with hma | hmm
    · exact intToStr_not_mem a x h1 h2 hma
    · exact hM hmm
  · exact intToStr_not_mem b x h1 h2 hm2

theorem pyStrip_render_concat (a b : Int) (M : Str) :
    pyStrip (intToStr a ++ M ++ intToStr b) = intToStr a ++ M ++ intToStr b := by
  refine pyStrip_eq_self _ ?_ ?_
  · intro c hc
    cases hn : intToStr a with
    | nil => exact absurd hn (intToStr_ne_nil a)
    | cons a0 t =>
      rw [hn, List.cons_append, List.cons_append, List.head?_cons] at hc
      injection hc with hc
      rw [← hc]
      exact intToStr_not_space a a0 (by rw [hn]; exact List.mem_cons_self a0 t)
  · intro c hc
    rw [List.getLast?_append_of_ne_nil _ (intToStr_ne_nil b)] at hc
    exact intToStr_not_space b c (List.mem_of_getLast?_eq_some hc)

theorem space_not_mem_render (i : Int) : ' ' ∉ intToStr i := fun hm =>
  absurd (intToStr_not_space i ' ' hm) (by decide)

/-- C7: for all integers a and b, evaluating the expression text built from
their decimal renderings joined by a space-surrounded + yields the integer
a+b, and joined by a space-surrounded > yields the boolean truth value of
a>b; both evaluations leave the fresh interpreter state untouched and go
through the native-value branch (the operands are not instances, so no
operator-overload dispatch can be involved). -/
theorem c7_integer_add_and_gt (f : Nat) (a b : Int) :
    eval_expr {} (f + 2) {} none none (intToStr a ++ S " + " ++ intToStr b) =
      (Except.ok (Value.vint (a + b)), ({} : Interp), none) ∧
    eval_expr {} (f + 2) {} none none (intToStr a ++ S " > " ++ intToStr b) =
      (Except.ok (Value.vbool (decide (a > b))), ({} : Interp), none) := by
  constructor
  · have hstrip := pyStrip_render_concat a b (S " + ")
    have hpar : containsChar (intToStr a ++ S " + " ++ intToStr b) '(' = false :=
      containsChar_false_of _ _
        (not_mem_render_concat a b _ '(' (by decide) (by decide) (by decide))
    have hsplit : splitFirst (S " + ") (intToStr a ++ S " + " ++ intToStr b) =
        some (intToStr a, intToStr b) :=
      splitFirst_first_occ ' ' (S "+ ") (intToStr a) (intToStr b)
        (space_not_mem_render a)
    unfold eval_expr
    rw [sem_eval_expr]
    unfold eval_exprF
    simp only [hstrip]
    rw [show selfRead none (intToStr a ++ S " + " ++ intToStr b) = none from rfl]
    rw [hpar]
    simp only [Bool.false_and, Bool.false_eq_true, if_false]
    unfold evalOps
    simp only [hsplit]
    unfold evalBinop
    rw [sem_eval_expr]
    simp only [eval_exprF_render (sem {} f) a, eval_exprF_render (sem {} f) b]
    rfl
  · have hstrip := pyStrip_render_concat a b (S " > ")
    have hpar : containsChar (intToStr a ++ S " > " ++ intToStr b) '(' = false :=
      containsChar_false_of _ _
        (not_mem_render_concat a b _ '(' (by decide) (by decide) (by decide))
    have hno1 : splitFirst (S " + ") (intToStr a ++ S " > " ++ intToStr b) = none :=
      splitFirst_none_of_not_mem _ _ '+' (by decide)
        (not_mem_render_concat a b _ '+' (by decide) (by decide) (by decide))
    have hno2 : splitFirst (S " == ") (intToStr a ++ S " > " ++ intToStr b) = none :=
      splitFirst_none_of_not_mem _ _ '=' (by decide)
        (not_mem_render_concat a b _ '=' (by decide) (by decide) (by decide))
    have hsplit : splitFirst (S " > ") (intToStr a ++ S " > " ++ intToStr b) =
        some (intToStr a, intToStr b) :=
      splitFirst_first_occ ' ' (S "> ") (intToStr a) (intToStr b)
        (space_not_mem_render a)
    unfold eval_expr
    rw [sem_eval_expr]
    unfold eval_exprF
    simp only [hstrip]
    rw [show selfRead none (intToStr a ++ S " > " ++ intToStr b) = none from rfl]
    rw [hpar]
    simp only [Bool.false_and, Bool.false_eq_true, if_false]
    unfold evalOps
    simp only [hno1, hno2, hsplit]
    unfold evalBinop
    rw [sem_eval_expr]
    simp only [eval_exprF_render (sem {} f) a, eval_exprF_render (sem {} f) b]
    rfl

/-- C1: the Try/Except/Now example script does not print the caught error
and 99 and continue; instead the bare terminator that closes the Try
capture already raises LineNoRecognized (execute_block_end clears the try
flag and falls through to the stray-terminator error), the run halts at
line 3 reporting an internal interpreter error, and nothing is printed:
the except and finally bodies never execute. -/
theorem c1_try_example_halts_at_first_terminator :
    (runLines {} 30 c1Script {}).1 =
      RunOutcome.internal (mkErr .lineNoRecognized (S "\x7d sem bloco ativo")) 3 ∧
    (runLines {} 30 c1Script {}).2.output = [] :=
  ⟨rfl, rfl⟩

/-- C2: a func block opened while a class capture is active is never
parsed (the capture branch appends the func header verbatim to the shared
buffer and the func flag is never set), so closing a class defined with
one method registers an empty method table under the class name, the
method is in neither the class table nor the global function table, and
the final terminator then raises LineNoRecognized. -/
theorem c2_class_method_never_registered :
    (runLines {} 30 c2Script {}).2.classes = [(S "Foo", [])] ∧
    dget (runLines {} 30 c2Script {}).2.classes (S "Foo") = some [] ∧
    (runLines {} 30 c2Script {}).2.functions = [] ∧
    (runLines {} 30 c2Script {}).1 =
      RunOutcome.internal (mkErr .lineNoRecognized (S "\x7d sem bloco ativo")) 5 :=
  ⟨rfl, rfl, rfl, rfl⟩

/-- C4: a bare terminator seen while a Try capture is open, or while an
Except capture is open, clears that capture flag but then raises
LineNoRecognized instead of returning cleanly to Idle; and a bare
terminator seen while no capture is open raises LineNoRecognized (the
unrecognized-line kind), not InvalidSyntax. -/
theorem c4_terminator_try_except_and_idle :
    execute_block_end {} 5 ({ inTry := true } : Interp) =
      (Except.error (mkErr .lineNoRecognized (S "\x7d sem bloco ativo")),
       ({} : Interp)) ∧
    execute_block_end {} 5 ({ inExcept := true } : Interp) =
      (Except.error (mkErr .lineNoRecognized (S "\x7d sem bloco ativo")),
       ({} : Interp)) ∧
    execute_block_end {} 5 ({} : Interp) =
      (Except.error (mkErr .lineNoRecognized (S "\x7d sem bloco ativo")),
       ({} : Interp)) :=
  ⟨rfl, rfl, rfl⟩

/-- C3 counterexample: with the global g bound to 5 before the call and a
zero-parameter function f whose body evaluates the bare name g, calling
f() does not yield the global value 5: it fails with VariableNotDefined,
because the call-local scope replaces (not extends) the globals. -/
theorem c3_counterexample_global_invisible :
    (eval_expr {} 10 c3State none none (S "f()")).1 =
      Except.error (mkErr .variableNotDefined
        (S "Expressão/Variável inválida: g")) ∧
    (eval_expr {} 10 c3State none none (S "f()")).1 ≠
      Except.ok (Value.vint 5) :=
  ⟨rfl, fun h => Except.noConfusion h⟩

/-- C5 counterexample: with c present in the constants mapping, executing
the line assigning an unevaluable expression to c does not fail with
ConstantReassignment: the right-hand side is evaluated first and its
VariableNotDefined error propagates instead. -/
theorem c5_counterexample_rhs_error_propagates :
    (execute_line c5Ctx 10 {} none (S "tyrt c = nosuch")).1 =
      Except.error (mkErr .variableNotDefined
        (S "Expressão/Variável inválida: nosuch")) ∧
    (execute_line c5Ctx 10 {} none (S "tyrt c = nosuch")).1 ≠
      Except.error (mkErr .constantReassignment (S "Constante c é imutável.")) :=
  ⟨rfl, by intro h; injection h with h1; injection h1 with h2; cases h2⟩

/-- C8 counterexample: the mapping literal written with the contents
a.b() does not yield a fresh empty Mapping: the whole text contains an
open parenthesis, ends with a close parenthesis and contains a dot, so
the dotted-call branch of rule 2 fires before the literal rule, splits
the text into the receiver #dicionario(a and the call b(), and
evaluating that receiver fails with VariableNotDefined. -/
theorem c8_counterexample_dotted_contents :
    (eval_expr {} 10 {} none none (S "#dicionario(a.b())")).1 =
      Except.error (mkErr .variableNotDefined
        (S "Expressão/Variável inválida: #dicionario(a")) ∧
    (eval_expr {} 10 {} none none (S "#dicionario(a.b())")).1 ≠
      Except.ok (Value.vdict []) :=
  ⟨rfl, fun h => Except.noConfusion h⟩

/-- C6 counterexample: handle_operator with the pseudo-operator print on
an instance whose class defines every overload method name (including
plausible print/len names) still fails with OperatorNotImplemented and
never invokes anything: DUNDER_MAP has no entry for print, so the
zero-argument invocation branch is unreachable. -/
theorem c6_counterexample_print_always_fails :
    (handle_operator {} 10 {} (Value.vinst (S "C") [] c6AllMethods)
        (S "print") none).1 =
      Except.error (mkErr .notImplementedError
        (S "O operador print não está implementado na classe C.")) ∧
    ∀ v, (handle_operator {} 10 {} (Value.vinst (S "C") [] c6AllMethods)
        (S "print") none).1 ≠ Except.ok v :=
  ⟨rfl, fun _v h => Except.noConfusion h⟩

theorem execBlockCore_vars (sm : Sem) (old : Dict Value) (st1 : Interp)
    (lines : List Str) (inst0 : Option Value) :
    ((execBlockCore sm old true st1 lines inst0).2.1).vars = old := by
  unfold execBlockCore
  rcases hbl : execBlockLines sm st1 inst0 lines with ⟨res, st2, inst2⟩
  simp only [hbl]
  rcases res with i | ov
  · rcases i with e | _ | _ | _
    · by_cases h1 : isTyrtRuntimeErrorKind e.kind = true
      · simp only [h1, if_true]
      · rw [Bool.not_eq_true] at h1
        simp only [h1, Bool.false_eq_true, if_false]
        by_cases h2 : isTyrtErrorKind e.kind = true
        · simp only [h2, if_true]
        · rw [Bool.not_eq_true] at h2
          simp only [h2, Bool.false_eq_true, if_false]
          simp
    · rfl
    · rfl
    · rfl
  · cases ov <;> rfl

/-- C9: execute_block called with a call-local scope restores the saved
variables mapping on every exit path: whatever the body lines are and
however the body exits (normal completion, return, error propagation,
loop-control signal, or fuel exhaustion), the variables mapping of the
resulting state equals the caller state's, so no bare-name assignment
made inside the call is visible to the caller. -/
theorem c9_call_restores_variables (K : Ctx) (f : Nat) (st : Interp)
    (lines : List Str) (L : Dict Value) (inst0 : Option Value) :
    ((execute_block K f st lines (some L) inst0).2.1).vars = st.vars := by
  cases f with
  | zero => rfl
  | succ n =>
    exact execBlockCore_vars (sem K n) st.vars { st with vars := L } lines inst0

theorem execBlockCore_runtime_err (sm : Sem) (old : Dict Value) (st1 : Interp)
    (lines : List Str) (inst0 : Option Value) (e : TyrtErr) (st2 : Interp)
    (i2 : Option Value) (hk : isTyrtRuntimeErrorKind e.kind = true)
    (hbl : execBlockLines sm st1 inst0 lines = (.error (.err e), st2, i2)) :
    (execBlockCore sm old true st1 lines inst0).1 = Except.error (.err e) := by
  unfold execBlockCore
  simp only [hbl]
  simp only [hk, if_true]

theorem endsWith_append_single (X : Str) (ch : Char) :
    endsWith [ch] (X ++ [ch]) = true := by
  unfold endsWith
  rw [List.reverse_append]
  simp [List.isPrefixOf]

/-- C8 amended: evaluating a mapping-literal expression yields a fresh
empty Mapping for every textual contents that does not contain a dot (in
any state, with any scope and receiver). The unrestricted claim is
false: contents containing a dot are seen by the dotted-call branch of
rule 2 before the literal rule, and the outcome then depends on the
contents (the counterexample contents a.b() fail with
VariableNotDefined) rather than being uniformly an empty mapping. -/
theorem c8_amended_dict_literal_empty (K : Ctx) (f : Nat) (st : Interp)
    (lv : Option (Dict Value)) (recv : Option Value) (c : Str) (hdot : '.' ∉ c) :
    eval_expr K (f + 1) st lv recv (S "#dicionario(" ++ c ++ S ")") =
      (Except.ok (Value.vdict []), st, recv) := by
  have hstrip : pyStrip (S "#dicionario(" ++ c ++ S ")") =
      S "#dicionario(" ++ c ++ S ")" := by
    refine pyStrip_eq_self _ ?_ ?_
    · intro x hx
      injection hx with hx
      rw [← hx]
      decide
    · intro x hx
      rw [List.getLast?_append_of_ne_nil _ (by simp [S])] at hx
      simp [S] at hx
      rw [← hx]
      decide
  have hself : selfRead recv (S "#dicionario(" ++ c ++ S ")") = none := by
    rcases recv with _ | v
    · rfl
    · cases v <;> rfl
  have hdot2 : containsChar (S "#dicionario(" ++ c ++ S ")") '.' = false := by
    refine containsChar_false_of _ _ ?_
    intro hm
    rcases List.mem_append.mp hm with hm1 | hm2
    · rcases List.mem_append.mp hm1 with hma | hmb
      · exact absurd hma (by decide)
      · exact hdot hmb
    · exact absurd hm2 (by decide)
  have hends : endsWith (S ")") (S "#dicionario(" ++ c ++ S ")") = true :=
    endsWith_append_single (S "#dicionario(" ++ c) ')'
  unfold eval_expr
  rw [sem_eval_expr]
  unfold eval_exprF
  simp only [hstrip]
  rw [hself]
  rw [show containsChar (S "#dicionario(" ++ c ++ S ")") '(' = true from rfl, hends]
  simp only [Bool.and_self, if_true]
  unfold evalCallShape
  rw [hdot2]
  simp only [Bool.false_eq_true, if_false]
  rw [show matchNativeFunc (S "#dicionario(" ++ c ++ S ")") = none from rfl]
  rw [show startsWith (S ".lista(") (S "#dicionario(" ++ c ++ S ")") = false from rfl]
  have hpre : startsWith (S "#dicionario(") (S "#dicionario(" ++ c ++ S ")") = true := by
    unfold startsWith
    rw [List.append_assoc]
    exact isPrefixOf_append_self _ _
  rw [hpre]
  rfl

/-- C8 amended witness: the mapping literal written with the non-empty
contents x: 1 evaluates to the empty mapping. -/
theorem c8_amended_witness :
    ('.' ∉ S "x: 1") ∧
    eval_expr {} 5 {} none none (S "#dicionario(" ++ S "x: 1" ++ S ")") =
      (Except.ok (Value.vdict []), ({} : Interp), none) :=
  ⟨by decide, c8_amended_dict_literal_empty {} 4 {} none none (S "x: 1") (by decide)⟩

/-- C6 amended: for the ten operator symbols that DUNDER_MAP maps (the
eight binary operators plus getitem and setitem), handle_operator fails
with OperatorNotImplemented exactly when the instance's class does not
define the mapped overload method, and otherwise invokes that overload
with the other operand (None when absent) as the sole argument and
returns its result; for the pseudo-operators print and len, which have no
DUNDER_MAP entry, handle_operator unconditionally fails with
OperatorNotImplemented, so the zero-argument invocation branch is
unreachable. -/
theorem c6_amended_handle_operator (K : Ctx) (f : Nat) (st : Interp) (cn : Str)
    (iv : Dict Value) (ms : MethodTable) (other : Option Value) :
    (∀ op dunder, dget DUNDER_MAP op = some dunder →
      (dhas ms dunder = false →
        handle_operator K (f + 1) st (Value.vinst cn iv ms) op other =
          (Except.error (mkErr .notImplementedError
            (S "O operador " ++ op ++ S " não está implementado na classe " ++
             cn ++ S ".")), st)) ∧
      (dhas ms dunder = true →
        handle_operator K (f + 1) st (Value.vinst cn iv ms) op other =
          ((call_method K f st (Value.vinst cn iv ms) dunder
              [other.getD Value.vnone]).1,
           (call_method K f st (Value.vinst cn iv ms) dunder
              [other.getD Value.vnone]).2.1))) ∧
    (∀ op, op = S "print" ∨ op = S "len" →
      handle_operator K (f + 1) st (Value.vinst cn iv ms) op other =
        (Except.error (mkErr .notImplementedError
          (S "O operador " ++ op ++ S " não está implementado na classe " ++
           cn ++ S ".")), st)) := by
  constructor
  · intro op dunder hmap
    constructor
    · intro hd
      unfold handle_operator
      rw [sem_handle_operator]
      unfold handle_operatorF
      rw [hmap]
      simp only [hd, Bool.not_false, if_true]
    · intro hd
      have hop1 : (op == S "print") = false := by
        cases hb : op == S "print"
        · rfl
        · exfalso
          have : op = S "print" := by simpa [beq_iff_eq] using hb
          rw [this] at hmap
          exact Option.noConfusion hmap
      have hop2 : (op == S "len") = false := by
        cases hb : op == S "len"
        · rfl
        · exfalso
          have : op = S "len" := by simpa [beq_iff_eq] using hb
          rw [this] at hmap
          exact Option.noConfusion hmap
      unfold handle_operator
      rw [sem_handle_operator]
      unfold handle_operatorF
      rw [hmap]
      simp only [hd, Bool.not_true, Bool.false_eq_true, if_false, hop1, hop2,
        Bool.or_self, if_false]
      rfl
  · intro op hop
    rcases hop with rfl | rfl
    · unfold handle_operator
      rw [sem_handle_operator]
      unfold handle_operatorF
      rw [show dget DUNDER_MAP (S "print") = none from rfl]
    · unfold handle_operator
      rw [sem_handle_operator]
      unfold handle_operatorF
      rw [show dget DUNDER_MAP (S "len") = none from rfl]

/-- C6 amended witness: the mapped operator + on an instance whose class
defines the add overload dispatches it with the other operand as the sole
argument and returns its result, here 7. -/
theorem c6_amended_witness :
    dget DUNDER_MAP (S "+") = some (S "___add___") ∧
    dhas c6AddMethods (S "___add___") = true ∧
    handle_operator {} 6 {} (Value.vinst (S "C") [] c6AddMethods) (S "+")
        (some (Value.vint 3)) =
      ((call_method {} 5 {} (Value.vinst (S "C") [] c6AddMethods) (S "___add___")
          [Value.vint 3]).1,
       (call_method {} 5 {} (Value.vinst (S "C") [] c6AddMethods) (S "___add___")
          [Value.vint 3]).2.1) ∧
    (call_method {} 5 {} (Value.vinst (S "C") [] c6AddMethods) (S "___add___")
        [Value.vint 3]).1 = Except.ok (Value.vint 7) :=
  ⟨rfl, rfl,
   ((c6_amended_handle_operator {} 5 {} (S "C") [] c6AddMethods
      (some (Value.vint 3))).1 (S "+") (S "___add___") rfl).2 rfl,
   rfl⟩

theorem eval_exprF_ident_vnd (K : Ctx) (sm : Sem) (st : Interp)
    (lv : Option (Dict Value)) (g : Str) (hne : g ≠ [])
    (hword : ∀ c ∈ g, wordChar c = true)
    (hhead : ∀ c, g.head? = some c → c.isDigit = false)
    (hscope : dget (match lv with
      | some lvv => dmerge (dmerge st.vars K.constants) lvv
      | none => dmerge st.vars K.constants) g = none) :
    eval_exprF K sm st lv none g =
      (.error (mkErr .variableNotDefined (S "Expressão/Variável inválida: " ++ g)),
       st, none) := by
  have hstrip : pyStrip g = g :=
    pyStrip_eq_self_of_forall g (fun c hc => wordChar_not_space c (hword c hc))
  have hpar : containsChar g '(' = false :=
    containsChar_false_of _ _ (not_mem_of_all_wordChar g hword '(' (by decide))
  unfold eval_exprF
  simp only [hstrip]
  rw [show selfRead none g = none from rfl]
  rw [hpar]
  simp only [Bool.false_and, Bool.false_eq_true, if_false]
  rw [evalOps_atomic _ _ _ _ _ _
    (not_mem_of_all_wordChar g hword '+' (by decide))
    (not_mem_of_all_wordChar g hword '=' (by decide))
    (not_mem_of_all_wordChar g hword '>' (by decide))
    (not_mem_of_all_wordChar g hword '<' (by decide))
    (not_mem_of_all_wordChar g hword ']' (by decide))]
  exact evalAtom_vnd _ _ _ _ hscope hne hword hhead

/-- C3 amended: a call body does not see the caller's globals: name
resolution inside a function or method body sees the call-local scope
(the parameters) and the constants, and for every global g bound before
the call, not shadowed by a parameter and not a constant, evaluating the
bare name g inside the call body fails with VariableNotDefined instead of
yielding the global value. -/
theorem c3_amended_globals_invisible_in_call (K : Ctx) (f : Nat) (st : Interp)
    (L : Dict Value) (g : Str) (v : Value)
    (_hglobal : dget st.vars g = some v)
    (hparam : dget L g = none)
    (hconst : dget K.constants g = none)
    (hne : g ≠ [])
    (hword : ∀ c ∈ g, wordChar c = true)
    (hhead : ∀ c, g.head? = some c → c.isDigit = false) :
    (execute_block K (f + 2) st [S "return_object " ++ g] (some L) none).1 =
      Except.error (mkErr .variableNotDefined
        (S "Expressão/Variável inválida: " ++ g)) := by
  have hret : startsWith (S "return_object") (S "return_object " ++ g) = true :=
    isPrefixOf_append_self (S "return_object") (' ' :: g)
  have hgword : ∀ c, g.head? = some c → pySpace c = false := by
    intro c hc
    exact wordChar_not_space c (hword c (List.mem_of_mem_head? hc))
  have hgword2 : ∀ c, g.getLast? = some c → pySpace c = false := by
    intro c hc
    exact wordChar_not_space c (hword c (List.mem_of_getLast?_eq_some hc))
  have hstrip : pyStrip (' ' :: g) = g := by
    unfold pyStrip
    rw [List.dropWhile_cons]
    rw [show pySpace ' ' = true from rfl]
    simp only [if_true]
    rw [dropWhile_eq_self_of_head pySpace g hgword]
    rw [dropWhile_eq_self_of_head pySpace g.reverse
      (fun c hc => hgword2 c (by rwa [List.head?_reverse] at hc))]
    exact List.reverse_reverse g
  have hscope : dget (dmerge (dmerge L K.constants) L) g = none :=
    dget_dmerge_none _ _ _ (dget_dmerge_none _ _ _ hparam hconst) hparam
  have heval : eval_exprF K (sem K f) { st with vars := L }
      (some (Interp.vars { st with vars := L })) none g =
      (.error (mkErr .variableNotDefined (S "Expressão/Variável inválida: " ++ g)),
       { st with vars := L }, none) :=
    eval_exprF_ident_vnd K (sem K f) { st with vars := L } (some L) g
      hne hword hhead hscope
  have hbody : execBlockLines (sem K (f + 1)) { st with vars := L } none
      [S "return_object " ++ g] =
      (.error (mkErr .variableNotDefined (S "Expressão/Variável inválida: " ++ g)),
       { st with vars := L }, none) := by
    unfold execBlockLines
    rw [hret]
    simp only [if_true]
    rw [show pyStrip ((S "return_object " ++ g).drop 13) = g from hstrip]
    rw [sem_eval_expr]
    rw [heval]
  exact execBlockCore_runtime_err (sem K (f + 1)) st.vars { st with vars := L }
    [S "return_object " ++ g] none
    ⟨.variableNotDefined, S "Expressão/Variável inválida: " ++ g⟩
    { st with vars := L } none rfl hbody

/-- C3 amended witness: at the concrete counterexample state the body
read of the unshadowed global g fails with VariableNotDefined. -/
theorem c3_amended_witness :
    dget c3State.vars (S "g") = some (Value.vint 5) ∧
    (execute_block {} 6 c3State [S "return_object " ++ S "g"] (some []) none).1 =
      Except.error (mkErr .variableNotDefined
        (S "Expressão/Variável inválida: " ++ S "g")) :=
  ⟨rfl,
   c3_amended_globals_invisible_in_call {} 4 c3State [] (S "g") (Value.vint 5)
     rfl rfl rfl (by decide) (by decide) (by decide)⟩

theorem pyStrip_word_trailing_space (n : Str) (hne : n ≠ [])
    (hword : ∀ c ∈ n, wordChar c = true) : pyStrip (n ++ [' ']) = n := by
  unfold pyStrip
  have hhead : ∀ c, (n ++ [' ']).head? = some c → pySpace c = false := by
    intro c hc
    cases hn : n with
    | nil => exact absurd hn hne
    | cons a t =>
      rw [hn, List.cons_append, List.head?_cons] at hc
      injection hc with hc
      rw [← hc]
      exact wordChar_not_space a (hword a (by rw [hn]; exact List.mem_cons_self a t))
  rw [dropWhile_eq_self_of_head pySpace _ hhead]
  rw [List.reverse_append]
  show (List.dropWhile pySpace (' ' :: n.reverse)).reverse = n
  rw [List.dropWhile_cons]
  rw [show pySpace ' ' = true from rfl]
  simp only [if_true]
  rw [dropWhile_eq_self_of_head pySpace n.reverse (by
    intro c hc
    rw [List.head?_reverse] at hc
    exact wordChar_not_space c (hword c (List.mem_of_getLast?_eq_some hc)))]
  exact List.reverse_reverse n

theorem sem_eval_strip_congr (K : Ctx) (f : Nat) (st : Interp)
    (lv : Option (Dict Value)) (recv : Option Value) (a b : Str)
    (h : pyStrip a = pyStrip b) :
    (sem K f).eval_expr st lv recv a = (sem K f).eval_expr st lv recv b := by
  cases f with
  | zero => rfl
  | succ m =>
    rw [sem_eval_expr]
    unfold eval_exprF
    rw [h]

theorem tyrtAssignTarget_const (K : Ctx) (sm : Sem) (st1 : Interp)
    (r1 : Option Value) (n : Str) (v : Value)
    (hword : ∀ c ∈ n, wordChar c = true) (hconst : dhas K.constants n = true) :
    tyrtAssignTarget K sm st1 r1 n v =
      (.error (mkErr .constantReassignment
        (S "Constante " ++ n ++ S " é imutável.")), st1, r1) := by
  unfold tyrtAssignTarget
  rw [matchIndexForm_none_of_word n hword]
  unfold tyrtAssignPlain
  rw [hconst]
  simp only [if_true]

theorem execute_line_tyrt_chain (K : Ctx) (f : Nat) (st : Interp) (n e : Str)
    (hne : n ≠ []) (hword : ∀ c ∈ n, wordChar c = true)
    (hee : e ≠ []) (helast : ∀ c, e.getLast? = some c → pySpace c = false)
    (h1 : st.inIf = false) (h2 : st.inFor = false) (h3 : st.inWhile = false)
    (h4 : st.inFunc = false) (h5 : st.inClass = false) (h6 : st.inTry = false)
    (h7 : st.inExcept = false) (h8 : st.inNow = false) :
    execute_line K (f + 1) st none (S "tyrt " ++ n ++ S " = " ++ e) =
      tyrtAssign K (sem K f) st none (n ++ [' ']) (' ' :: e) := by
  have hl : pyStrip (S "tyrt " ++ n ++ S " = " ++ e) =
      S "tyrt " ++ n ++ S " = " ++ e := by
    refine pyStrip_eq_self _ ?_ ?_
    · intro c hc
      rw [show (S "tyrt " ++ n ++ S " = " ++ e).head? = some 't' from rfl] at hc
      injection hc with hc
      rw [← hc]
      decide
    · intro c hc
      rw [List.getLast?_append_of_ne_nil _ hee] at hc
      exact helast c hc
  have htyrt : startsWith (S "tyrt ") (S "tyrt " ++ n ++ S " = " ++ e) = true := by
    unfold startsWith
    rw [List.append_assoc, List.append_assoc]
    exact isPrefixOf_append_self _ _
  have hstrip2 : pyStrip (n ++ S " = " ++ e) = n ++ S " = " ++ e := by
    refine pyStrip_eq_self _ ?_ ?_
    · intro c hc
      cases hn : n with
      | nil => exact absurd hn hne
      | cons a t =>
        rw [hn, List.cons_append, List.cons_append, List.head?_cons] at hc
        injection hc with hc
        rw [← hc]
        exact wordChar_not_space a (hword a (by rw [hn]; exact List.mem_cons_self a t))
    · intro c hc
      rw [List.getLast?_append_of_ne_nil _ hee] at hc
      exact helast c hc
  have hshape : n ++ S " = " ++ e = ((n ++ [' ']) ++ ['=']) ++ (' ' :: e) := by
    simp only [List.append_assoc]
    rfl
  have hnotmem : '=' ∉ n ++ [' '] := by
    intro hm
    rcases List.mem_append.mp hm with hm1 | hm2
    · exact not_mem_of_all_wordChar n hword '=' (by decide) hm1
    · simp at hm2
  have hsp : splitFirst (S "=") (n ++ S " = " ++ e) = some (n ++ [' '], ' ' :: e) := by
    rw [hshape]
    exact splitFirst_first_occ '=' [] (n ++ [' ']) (' ' :: e) hnotmem
  unfold execute_line
  rw [sem_execute_line]
  unfold execute_lineF
  simp only [hl]
  rw [show (startsWith (S "/0") (S "tyrt " ++ n ++ S " = " ++ e) ||
      (S "tyrt " ++ n ++ S " = " ++ e).isEmpty) = false from rfl]
  simp only [Bool.false_eq_true, if_false]
  rw [show ((S "tyrt " ++ n ++ S " = " ++ e) == [rbraceChar]) = false from rfl]
  simp only [Bool.false_eq_true, if_false]
  rw [h1, h2, h3, h4, h5, h6, h7, h8]
  simp only [Bool.or_self, Bool.or_false, Bool.false_or, Bool.false_eq_true, if_false]
  rw [show startsWith (S "Try") (S "tyrt " ++ n ++ S " = " ++ e) = false from rfl,
    show startsWith (S "Except") (S "tyrt " ++ n ++ S " = " ++ e) = false from rfl,
    show startsWith (S "Now") (S "tyrt " ++ n ++ S " = " ++ e) = false from rfl,
    show startsWith (S "entr_i") (S "tyrt " ++ n ++ S " = " ++ e) = false from rfl,
    show startsWith (S "/1") (S "tyrt " ++ n ++ S " = " ++ e) = false from rfl,
    show startsWith (S "BILHETE_NADA") (S "tyrt " ++ n ++ S " = " ++ e) = false from rfl,
    show startsWith (S "class ") (S "tyrt " ++ n ++ S " = " ++ e) = false from rfl,
    show startsWith (S "func ") (S "tyrt " ++ n ++ S " = " ++ e) = false from rfl]
  simp only [Bool.false_eq_true, if_false]
  rw [htyrt]
  simp only [if_true]
  rw [show (S "tyrt " ++ n ++ S " = " ++ e).drop 5 = n ++ S " = " ++ e from rfl]
  rw [hstrip2]
  simp only [hsp]

/-- C5 amended: for a bare name n present in the constants mapping, the
assignment line evaluates the right-hand side first; when that evaluation
succeeds the line fails with ConstantReassignment and the assignment
itself writes nothing (the resulting state is exactly the state the
evaluation produced, and constants are never written anywhere); when the
evaluation raises, that error propagates instead and ConstantReassignment
is never reached. -/
theorem c5_amended_constant_reassignment (K : Ctx) (f : Nat) (st : Interp)
    (n e : Str)
    (hne : n ≠ []) (hword : ∀ c ∈ n, wordChar c = true)
    (hee : e ≠ []) (helast : ∀ c, e.getLast? = some c → pySpace c = false)
    (h1 : st.inIf = false) (h2 : st.inFor = false) (h3 : st.inWhile = false)
    (h4 : st.inFunc = false) (h5 : st.inClass = false) (h6 : st.inTry = false)
    (h7 : st.inExcept = false) (h8 : st.inNow = false)
    (hconst : dhas K.constants n = true) :
    (∀ v st1 r1, eval_expr K f st none none e = (.ok v, st1, r1) →
      execute_line K (f + 1) st none (S "tyrt " ++ n ++ S " = " ++ e) =
        (.error (mkErr .constantReassignment
          (S "Constante " ++ n ++ S " é imutável.")), st1, r1)) ∧
    (∀ i st1 r1, eval_expr K f st none none e = (.error i, st1, r1) →
      execute_line K (f + 1) st none (S "tyrt " ++ n ++ S " = " ++ e) =
        (.error i, st1, r1)) := by
  have hchain := execute_line_tyrt_chain K f st n e hne hword hee helast
    h1 h2 h3 h4 h5 h6 h7 h8
  have hcongr : (sem K f).eval_expr st none none (' ' :: e) =
      eval_expr K f st none none e :=
    sem_eval_strip_congr K f st none none (' ' :: e) e rfl
  have hvar : pyStrip (n ++ [' ']) = n := pyStrip_word_trailing_space n hne hword
  have hss : startsWith (S "self.") n = false :=
    startsWith_false_of_missing _ _ '.' (by decide)
      (not_mem_of_all_wordChar n hword '.' (by decide))
  constructor
  · intro v st1 r1 heval
    rw [hchain]
    unfold tyrtAssign
    simp only [hvar]
    rw [hcongr, heval]
    rw [hss]
    rcases r1 with _ | rv
    · exact tyrtAssignTarget_const K (sem K f) st1 none n v hword hconst
    · cases rv <;>
        exact tyrtAssignTarget_const K (sem K f) st1 _ n v hword hconst
  · intro i st1 r1 heval
    rw [hchain]
    unfold tyrtAssign
    simp only [hvar]
    rw [hcongr, heval]

/-- C5 amended witness: at the concrete context binding the constant c,
assigning the well-formed expression 7 to c fails with
ConstantReassignment and leaves the state unchanged. -/
theorem c5_amended_witness :
    dhas c5Ctx.constants (S "c") = true ∧
    execute_line c5Ctx 6 {} none (S "tyrt " ++ S "c" ++ S " = " ++ S "7") =
      (.error (mkErr .constantReassignment
        (S "Constante " ++ S "c" ++ S " é imutável.")), ({} : Interp), none) :=
  ⟨rfl,
   (c5_amended_constant_reassignment c5Ctx 5 {} (S "c") (S "7")
     (by decide) (by decide) (by decide) (by decide)
     rfl rfl rfl rfl rfl rfl rfl rfl rfl).1
     (Value.vint 7) {} none rfl⟩

/-- C10: a line that contains an open parenthesis and ends with a close
parenthesis but matches no earlier line rule is evaluated as a bare call;
when that evaluation raises an engine-taxonomy error (any TyrtError kind,
such as VariableNotDefined or InvalidMethodCall), the error is suppressed
and the line fails with the unrecognized-line error instead, at the state
the failed evaluation left behind: the caller never observes the
underlying evaluation error. -/
theorem c10_bare_call_error_suppressed (K : Ctx) (f : Nat) (st : Interp)
    (recv : Option Value) (line : Str) (err : TyrtErr) (st1 : Interp)
    (r1 : Option Value)
    (hstrip : pyStrip line = line)
    (hcomment : startsWith (S "/0") line = false)
    (hempty : line.isEmpty = false)
    (hbrace : (line == [rbraceChar]) = false)
    (h1 : st.inIf = false) (h2 : st.inFor = false) (h3 : st.inWhile = false)
    (h4 : st.inFunc = false) (h5 : st.inClass = false) (h6 : st.inTry = false)
    (h7 : st.inExcept = false) (h8 : st.inNow = false)
    (hTry : startsWith (S "Try") line = false)
    (hExc : startsWith (S "Except") line = false)
    (hNow : startsWith (S "Now") line = false)
    (hEntr : startsWith (S "entr_i") line = false)
    (hWh : startsWith (S "/1") line = false)
    (hIf : startsWith (S "BILHETE_NADA") line = false)
    (hCls : startsWith (S "class ") line = false)
    (hFn : startsWith (S "func ") line = false)
    (hTyrt : startsWith (S "tyrt ") line = false ∨
      splitFirst (S "=") (pyStrip (line.drop 5)) = none)
    (hBrk : (line == S "loop.break") = false)
    (hCont : (line == S "loop.continue") = false)
    (hPrint : startsWith (S "print|[") line = false)
    (hParen : containsChar line '(' = true)
    (hEnds : endsWith (S ")") line = true)
    (heval : eval_expr K f st none recv line = (.error (.err err), st1, r1))
    (hkind : isTyrtErrorKind err.kind = true) :
    execute_line K (f + 1) st recv line =
      (.error (mkErr .lineNoRecognized (S "Linha não reconhecida: " ++ line)),
       st1, r1) := by
  have htail : execLineTail (sem K f) st recv line =
      (.error (mkErr .lineNoRecognized (S "Linha não reconhecida: " ++ line)),
       st1, r1) := by
    have heval2 : (sem K f).eval_expr st none recv line =
        (.error (.err err), st1, r1) := heval
    unfold execLineTail
    rw [hBrk]
    simp only [Bool.false_eq_true, if_false]
    rw [hCont]
    simp only [Bool.false_eq_true, if_false]
    rw [hPrint]
    simp only [Bool.false_eq_true, if_false]
    rw [hParen, hEnds]
    simp only [Bool.and_self, if_true]
    simp only [heval2]
    rw [hkind]
    simp only [if_true]
  unfold execute_line
  rw [sem_execute_line]
  unfold execute_lineF
  simp only [hstrip]
  rw [hcomment, hempty]
  simp only [Bool.or_self, Bool.false_eq_true, if_false]
  rw [hbrace]
  simp only [Bool.false_eq_true, if_false]
  rw [h1, h2, h3, h4, h5, h6, h7, h8]
  simp only [Bool.or_self, Bool.or_false, Bool.false_or, Bool.false_eq_true, if_false]
  rw [hTry]
  simp only [Bool.false_eq_true, if_false]
  rw [hExc]
  simp only [Bool.false_eq_true, if_false]
  rw [hNow]
  simp only [Bool.false_eq_true, if_false]
  rw [hEntr]
  simp only [Bool.false_eq_true, if_false]
  rw [hWh]
  simp only [Bool.false_eq_true, if_false]
  rw [hIf]
  simp only [Bool.false_eq_true, if_false]
  rw [hCls]
  simp only [Bool.false_eq_true, if_false]
  rw [hFn]
  simp only [Bool.false_eq_true, if_false]
  rcases hTyrt with hA | hB
  · rw [hA]
    simp only [Bool.false_eq_true, if_false]
    exact htail
  · by_cases hT : startsWith (S "tyrt ") line = true
    · rw [hT]
      simp only [if_true]
      simp only [hB]
      exact htail
    · rw [Bool.not_eq_true] at hT
      rw [hT]
      simp only [Bool.false_eq_true, if_false]
      exact htail

/-- C10 witness: the bare-call line foo() in the fresh state evaluates to
VariableNotDefined, which is a TyrtError kind, and the line therefore
fails with the unrecognized-line error. -/
theorem c10_witness :
    eval_expr {} 5 {} none none (S "foo()") =
      (.error (.err ⟨.variableNotDefined,
        S "Expressão/Variável inválida: foo()"⟩), ({} : Interp), none) ∧
    isTyrtErrorKind ErrKind.variableNotDefined = true ∧
    execute_line {} 6 {} none (S "foo()") =
      (.error (mkErr .lineNoRecognized (S "Linha não reconhecida: " ++ S "foo()")),
       ({} : Interp), none) :=
  ⟨rfl, rfl,
   c10_bare_call_error_suppressed {} 5 {} none (S "foo()")
     ⟨.variableNotDefined, S "Expressão/Variável inválida: foo()"⟩ {} none
     rfl rfl rfl rfl rfl rfl rfl rfl rfl rfl rfl rfl
     rfl rfl rfl rfl rfl rfl rfl rfl
     (Or.inl rfl) rfl rfl rfl rfl rfl rfl rfl⟩
